import Mathlib

/-!
Verification of the distribution / session core of the hw3 game store.

The development shallowly embeds the server code:

* protocol.py      : message tags, the framed codec and the JSON body codec
                     (json.dumps / json.loads are modelled by an executable
                     encoder / parser pair over a JSON value type);
* db_manager.py    : the catalog store (rooms, memberships, games, reviews,
                     downloads, versions) as pure state-passing functions;
* lobby_server.py  : the unknown-tag behaviour of the session loop, the
                     download handler, and the room event handlers;
* game_server_manager.py : the supervisor entries and the monitor step;
* developer_server.py    : the upload / update flow and its cleanup paths.

sqlite is modelled by lists of rows; machine integers are Nat / Int;
fallible operations return Option or a Bool success flag together with the
new state.  SHA-256 (hashlib, external to the repository) is threaded as an
explicit function parameter so every definition stays executable.
-/

namespace GameStore

/-! ## Message types (protocol.py, class MessageType) -/

inductive MessageType where
  | AUTH_REQUEST | AUTH_RESPONSE | REGISTER_REQUEST | REGISTER_RESPONSE | LOGOUT
  | GAME_LIST_REQUEST | GAME_LIST_RESPONSE | GAME_DETAIL_REQUEST | GAME_DETAIL_RESPONSE
  | SEARCH_GAMES
  | DOWNLOAD_REQUEST | DOWNLOAD_META | DOWNLOAD_CHUNK | DOWNLOAD_COMPLETE
  | CHECK_UPDATE | UPDATE_AVAILABLE
  | CREATE_ROOM | ROOM_CREATED | JOIN_ROOM | ROOM_JOINED | LEAVE_ROOM
  | ROOM_LIST_REQUEST | ROOM_LIST_RESPONSE | START_GAME_REQUEST | GAME_STARTED | ROOM_UPDATE
  | SUBMIT_REVIEW | REVIEW_SUBMITTED | GET_REVIEWS | REVIEWS_RESPONSE
  | UPLOAD_START | UPLOAD_READY | UPLOAD_CHUNK | UPLOAD_COMPLETE | UPLOAD_SUCCESS
  | UPDATE_GAME | UPDATE_SUCCESS | REMOVE_GAME | REMOVE_SUCCESS
  | MY_GAMES_REQUEST | MY_GAMES_RESPONSE
  | PLUGIN_LIST_REQUEST | PLUGIN_LIST_RESPONSE | PLUGIN_DOWNLOAD | PLUGIN_MESSAGE
  | ERROR | SUCCESS | HEARTBEAT
  deriving DecidableEq, Repr

/-- Numeric tag of each message type, as assigned in protocol.py. -/
def MessageType.toCode : MessageType → Nat
  | .AUTH_REQUEST => 0x0001
  | .AUTH_RESPONSE => 0x0002
  | .REGISTER_REQUEST => 0x0003
  | .REGISTER_RESPONSE => 0x0004
  | .LOGOUT => 0x0005
  | .GAME_LIST_REQUEST => 0x0101
  | .GAME_LIST_RESPONSE => 0x0102
  | .GAME_DETAIL_REQUEST => 0x0103
  | .GAME_DETAIL_RESPONSE => 0x0104
  | .SEARCH_GAMES => 0x0105
  | .DOWNLOAD_REQUEST => 0x0201
  | .DOWNLOAD_META => 0x0202
  | .DOWNLOAD_CHUNK => 0x0203
  | .DOWNLOAD_COMPLETE => 0x0204
  | .CHECK_UPDATE => 0x0205
  | .UPDATE_AVAILABLE => 0x0206
  | .CREATE_ROOM => 0x0301
  | .ROOM_CREATED => 0x0302
  | .JOIN_ROOM => 0x0303
  | .ROOM_JOINED => 0x0304
  | .LEAVE_ROOM => 0x0305
  | .ROOM_LIST_REQUEST => 0x0306
  | .ROOM_LIST_RESPONSE => 0x0307
  | .START_GAME_REQUEST => 0x0308
  | .GAME_STARTED => 0x0309
  | .ROOM_UPDATE => 0x030A
  | .SUBMIT_REVIEW => 0x0401
  | .REVIEW_SUBMITTED => 0x0402
  | .GET_REVIEWS => 0x0403
  | .REVIEWS_RESPONSE => 0x0404
  | .UPLOAD_START => 0x0501
  | .UPLOAD_READY => 0x0502
  | .UPLOAD_CHUNK => 0x0503
  | .UPLOAD_COMPLETE => 0x0504
  | .UPLOAD_SUCCESS => 0x0505
  | .UPDATE_GAME => 0x0506
  | .UPDATE_SUCCESS => 0x0507
  | .REMOVE_GAME => 0x0508
  | .REMOVE_SUCCESS => 0x0509
  | .MY_GAMES_REQUEST => 0x050A
  | .MY_GAMES_RESPONSE => 0x050B
  | .PLUGIN_LIST_REQUEST => 0x0601
  | .PLUGIN_LIST_RESPONSE => 0x0602
  | .PLUGIN_DOWNLOAD => 0x0603
  | .PLUGIN_MESSAGE => 0x0604
  | .ERROR => 0x00FF
  | .SUCCESS => 0x00FE
  | .HEARTBEAT => 0x00FD

/-- The IntEnum constructor MessageType(value): returns the member with that
value, and raises ValueError for a value outside the enum (modelled none). -/
def MessageType.ofCode (n : Nat) : Option MessageType :=
  if n = 0x0001 then some .AUTH_REQUEST
  else if n = 0x0002 then some .AUTH_RESPONSE
  else if n = 0x0003 then some .REGISTER_REQUEST
  else if n = 0x0004 then some .REGISTER_RESPONSE
  else if n = 0x0005 then some .LOGOUT
  else if n = 0x0101 then some .GAME_LIST_REQUEST
  else if n = 0x0102 then some .GAME_LIST_RESPONSE
  else if n = 0x0103 then some .GAME_DETAIL_REQUEST
  else if n = 0x0104 then some .GAME_DETAIL_RESPONSE
  else if n = 0x0105 then some .SEARCH_GAMES
  else if n = 0x0201 then some .DOWNLOAD_REQUEST
  else if n = 0x0202 then some .DOWNLOAD_META
  else if n = 0x0203 then some .DOWNLOAD_CHUNK
  else if n = 0x0204 then some .DOWNLOAD_COMPLETE
  else if n = 0x0205 then some .CHECK_UPDATE
  else if n = 0x0206 then some .UPDATE_AVAILABLE
  else if n = 0x0301 then some .CREATE_ROOM
  else if n = 0x0302 then some .ROOM_CREATED
  else if n = 0x0303 then some .JOIN_ROOM
  else if n = 0x0304 then some .ROOM_JOINED
  else if n = 0x0305 then some .LEAVE_ROOM
  else if n = 0x0306 then some .ROOM_LIST_REQUEST
  else if n = 0x0307 then some .ROOM_LIST_RESPONSE
  else if n = 0x0308 then some .START_GAME_REQUEST
  else if n = 0x0309 then some .GAME_STARTED
  else if n = 0x030A then some .ROOM_UPDATE
  else if n = 0x0401 then some .SUBMIT_REVIEW
  else if n = 0x0402 then some .REVIEW_SUBMITTED
  else if n = 0x0403 then some .GET_REVIEWS
  else if n = 0x0404 then some .REVIEWS_RESPONSE
  else if n = 0x0501 then some .UPLOAD_START
  else if n = 0x0502 then some .UPLOAD_READY
  else if n = 0x0503 then some .UPLOAD_CHUNK
  else if n = 0x0504 then some .UPLOAD_COMPLETE
  else if n = 0x0505 then some .UPLOAD_SUCCESS
  else if n = 0x0506 then some .UPDATE_GAME
  else if n = 0x0507 then some .UPDATE_SUCCESS
  else if n = 0x0508 then some .REMOVE_GAME
  else if n = 0x0509 then some .REMOVE_SUCCESS
  else if n = 0x050A then some .MY_GAMES_REQUEST
  else if n = 0x050B then some .MY_GAMES_RESPONSE
  else if n = 0x0601 then some .PLUGIN_LIST_REQUEST
  else if n = 0x0602 then some .PLUGIN_LIST_RESPONSE
  else if n = 0x0603 then some .PLUGIN_DOWNLOAD
  else if n = 0x0604 then some .PLUGIN_MESSAGE
  else if n = 0x00FF then some .ERROR
  else if n = 0x00FE then some .SUCCESS
  else if n = 0x00FD then some .HEARTBEAT
  else none

/-! ## JSON values

Message bodies are Python dicts passed through json.dumps / json.loads.
The value space is modelled by a mutual inductive (numbers restricted to
integers, the only numbers the server ever puts in a body apart from the
review progress ratio, which is handled as a rational elsewhere). -/

mutual
inductive Json where
  | null : Json
  | bool (b : Bool) : Json
  | num (n : Int) : Json
  | str (s : List Char) : Json
  | arr (elems : JsonList) : Json
  | obj (fields : JsonFields) : Json
inductive JsonList where
  | nil : JsonList
  | cons (hd : Json) (tl : JsonList) : JsonList
inductive JsonFields where
  | nil : JsonFields
  | cons (key : List Char) (val : Json) (tl : JsonFields) : JsonFields
end

mutual
/-- Structural size used as parser fuel bound. -/
def sizeJ : Json → Nat
  | .null => 1
  | .bool _ => 1
  | .num _ => 1
  | .str _ => 1
  | .arr l => sizeL l + 1
  | .obj f => sizeF f + 1
def sizeL : JsonList → Nat
  | .nil => 0
  | .cons h t => sizeJ h + sizeL t + 1
def sizeF : JsonFields → Nat
  | .nil => 0
  | .cons _ v t => sizeJ v + sizeF t + 1
end

/-- Lowercase hex digit, as emitted by json.dumps in escape sequences. -/
def hexDigitChar (d : Nat) : Char :=
  if d < 10 then Char.ofNat (48 + d) else Char.ofNat (87 + d)

/-- Four hex digits, most significant first. -/
def hex4 (n : Nat) : List Char :=
  [hexDigitChar (n / 4096 % 16), hexDigitChar (n / 256 % 16),
   hexDigitChar (n / 16 % 16), hexDigitChar (n % 16)]

/-- Escaping of one character inside a JSON string, following the default
(ensure_ascii) behaviour of json.dumps: double quote and backslash get a
two-character escape, the five named control characters get their short
escapes, every other control character and every non-ASCII character is
written as a backslash-u sequence, with surrogate pairs above U+FFFF. -/
def escapeChar (c : Char) : List Char :=
  if c = '"' then ['\\', '"']
  else if c = '\\' then ['\\', '\\']
  else if c = '\x08' then ['\\', 'b']
  else if c = '\x09' then ['\\', 't']
  else if c = '\x0a' then ['\\', 'n']
  else if c = '\x0c' then ['\\', 'f']
  else if c = '\x0d' then ['\\', 'r']
  else if c.toNat < 0x20 then '\\' :: 'u' :: hex4 c.toNat
  else if c.toNat ≤ 0x7e then [c]
  else if c.toNat < 0x10000 then '\\' :: 'u' :: hex4 c.toNat
  else
    ('\\' :: 'u' :: hex4 (0xd800 + (c.toNat - 0x10000) / 0x400)) ++
    ('\\' :: 'u' :: hex4 (0xdc00 + (c.toNat - 0x10000) % 0x400))

def escapeString (s : List Char) : List Char := (s.map escapeChar).flatten

/-- Decimal digits of a natural number, most significant first. -/
def natDecimal (n : Nat) : List Char :=
  if _h : n < 10 then [Char.ofNat (48 + n)]
  else natDecimal (n / 10) ++ [Char.ofNat (48 + n % 10)]
  decreasing_by exact Nat.div_lt_self (by omega) (by omega)

/-- Decimal rendering of an integer, as json.dumps renders int. -/
def intDecimal (n : Int) : List Char :=
  if n < 0 then '-' :: natDecimal n.natAbs else natDecimal n.natAbs

mutual
/-- json.dumps with its default separators: elements joined by a comma and
a space, keys separated from values by a colon and a space. -/
def dumpsJ : Json → List Char
  | .num n => intDecimal n
  | .str s => '"' :: escapeString s ++ ['"']
  | .null => ['n', 'u', 'l', 'l']
  | .bool false => ['f', 'a', 'l', 's', 'e']
  | .bool true => ['t', 'r', 'u', 'e']
  | .arr l => '[' :: dumpsList l ++ [']']
  | .obj f => '{' :: dumpsFields f ++ ['}']
def dumpsList : JsonList → List Char
  | .nil => []
  | .cons h .nil => dumpsJ h
  | .cons h (.cons h2 t) => dumpsJ h ++ ',' :: ' ' :: dumpsList (.cons h2 t)
def dumpsFields : JsonFields → List Char
  | .nil => []
  | .cons k v .nil => '"' :: escapeString k ++ '"' :: ':' :: ' ' :: dumpsJ v
  | .cons k v (.cons k2 v2 t) =>
      ('"' :: escapeString k ++ '"' :: ':' :: ' ' :: dumpsJ v) ++
      ',' :: ' ' :: dumpsFields (.cons k2 v2 t)
end

/-! ## json.loads, modelled as an executable recursive-descent parser

The parser accepts what the encoder above emits (plus surrounding
whitespace, as json.loads does).  Fuel decreases on every bracket descent;
sizeJ bounds the fuel a value needs. -/

def isWsC (c : Char) : Bool := c = ' ' || c = '\t' || c = '\n' || c = '\r'

def skipWs : List Char → List Char
  | [] => []
  | c :: rest => if isWsC c then skipWs rest else c :: rest

def isDigitC (c : Char) : Bool := decide (48 ≤ c.toNat ∧ c.toNat ≤ 57)

def hexVal (c : Char) : Option Nat :=
  if 48 ≤ c.toNat ∧ c.toNat ≤ 57 then some (c.toNat - 48)
  else if 97 ≤ c.toNat ∧ c.toNat ≤ 102 then some (c.toNat - 87)
  else if 65 ≤ c.toNat ∧ c.toNat ≤ 70 then some (c.toNat - 55)
  else none

def parseDigitsAux : List Char → Nat → Nat × List Char
  | [], acc => (acc, [])
  | c :: rest, acc =>
    if isDigitC c then parseDigitsAux rest (acc * 10 + (c.toNat - 48))
    else (acc, c :: rest)

def parseNumber : List Char → Option (Int × List Char)
  | [] => none
  | c :: rest =>
    if c = '-' then
      match rest with
      | d :: _ =>
        if isDigitC d then
          let p := parseDigitsAux rest 0
          some (-(p.1 : Int), p.2)
        else none
      | [] => none
    else if isDigitC c then
      let p := parseDigitsAux (c :: rest) 0
      some ((p.1 : Int), p.2)
    else none

/-- String body after the opening quote, with the escape sequences
json.loads accepts, including surrogate pairs.  A lone surrogate escape is
rejected (the model's characters are unicode scalar values).  The fuel,
instantiated with the input length at both call sites, bounds the loop
count; every iteration consumes at least one character, so that
instantiation never runs out. -/
def parseStringBody : Nat → List Char → Option (List Char × List Char)
  | 0, _ => none
  | _ + 1, [] => none
  | fuel + 1, c :: rest =>
    if c = '"' then some ([], rest)
    else if c = '\\' then
      match rest with
      | [] => none
      | e :: rest2 =>
        if e = '"' then
          match parseStringBody fuel rest2 with
          | some (s, r) => some ('"' :: s, r)
          | none => none
        else if e = '\\' then
          match parseStringBody fuel rest2 with
          | some (s, r) => some ('\\' :: s, r)
          | none => none
        else if e = '/' then
          match parseStringBody fuel rest2 with
          | some (s, r) => some ('/' :: s, r)
          | none => none
        else if e = 'b' then
          match parseStringBody fuel rest2 with
          | some (s, r) => some ('\x08' :: s, r)
          | none => none
        else if e = 't' then
          match parseStringBody fuel rest2 with
          | some (s, r) => some ('\x09' :: s, r)
          | none => none
        else if e = 'n' then
          match parseStringBody fuel rest2 with
          | some (s, r) => some ('\x0a' :: s, r)
          | none => none
        else if e = 'f' then
          match parseStringBody fuel rest2 with
          | some (s, r) => some ('\x0c' :: s, r)
          | none => none
        else if e = 'r' then
          match parseStringBody fuel rest2 with
          | some (s, r) => some ('\x0d' :: s, r)
          | none => none
        else if e = 'u' then
          match rest2 with
          | h1 :: h2 :: h3 :: h4 :: rest3 =>
            match hexVal h1, hexVal h2, hexVal h3, hexVal h4 with
            | some d1, some d2, some d3, some d4 =>
              let n := d1 * 4096 + d2 * 256 + d3 * 16 + d4
              if 0xd800 ≤ n ∧ n ≤ 0xdbff then
                match rest3 with
                | '\\' :: 'u' :: g1 :: g2 :: g3 :: g4 :: rest4 =>
                  match hexVal g1, hexVal g2, hexVal g3, hexVal g4 with
                  | some e1, some e2, some e3, some e4 =>
                    let m := e1 * 4096 + e2 * 256 + e3 * 16 + e4
                    if 0xdc00 ≤ m ∧ m ≤ 0xdfff then
                      match parseStringBody fuel rest4 with
                      | some (s, r) =>
                        some (Char.ofNat (0x10000 + (n - 0xd800) * 0x400 + (m - 0xdc00)) :: s, r)
                      | none => none
                    else none
                  | _, _, _, _ => none
                | _ => none
              else if 0xdc00 ≤ n ∧ n ≤ 0xdfff then none
              else
                match parseStringBody fuel rest3 with
                | some (s, r) => some (Char.ofNat n :: s, r)
                | none => none
            | _, _, _, _ => none
          | _ => none
        else none
    else
      match parseStringBody fuel rest with
      | some (s, r) => some (c :: s, r)
      | none => none

mutual
def parseJson : Nat → List Char → Option (Json × List Char)
  | 0, _ => none
  | fuel + 1, s =>
    match skipWs s with
    | [] => none
    | c :: rest =>
      if c = 'n' then
        match rest with
        | 'u' :: 'l' :: 'l' :: r => some (.null, r)
        | _ => none
      else if c = 't' then
        match rest with
        | 'r' :: 'u' :: 'e' :: r => some (.bool true, r)
        | _ => none
      else if c = 'f' then
        match rest with
        | 'a' :: 'l' :: 's' :: 'e' :: r => some (.bool false, r)
        | _ => none
      else if c = '"' then
        match parseStringBody rest.length rest with
        | some (s', r) => some (.str s', r)
        | none => none
      else if c = '[' then
        match skipWs rest with
        | ']' :: r => some (.arr .nil, r)
        | s1 =>
          match parseItems fuel s1 with
          | some (l, r) => some (.arr l, r)
          | none => none
      else if c = '{' then
        match skipWs rest with
        | '}' :: r => some (.obj .nil, r)
        | s1 =>
          match parseFieldItems fuel s1 with
          | some (f, r) => some (.obj f, r)
          | none => none
      else
        match parseNumber (c :: rest) with
        | some (n, r) => some (.num n, r)
        | none => none

def parseItems : Nat → List Char → Option (JsonList × List Char)
  | 0, _ => none
  | fuel + 1, s =>
    match parseJson fuel s with
    | some (v, r) =>
      match skipWs r with
      | ',' :: r2 =>
        match parseItems fuel r2 with
        | some (tl, r3) => some (.cons v tl, r3)
        | none => none
      | ']' :: r2 => some (.cons v .nil, r2)
      | _ => none
    | none => none

def parseFieldItems : Nat → List Char → Option (JsonFields × List Char)
  | 0, _ => none
  | fuel + 1, s =>
    match skipWs s with
    | '"' :: rest =>
      match parseStringBody rest.length rest with
      | some (k, r) =>
        match skipWs r with
        | ':' :: r2 =>
          match parseJson fuel r2 with
          | some (v, r3) =>
            match skipWs r3 with
            | ',' :: r4 =>
              match parseFieldItems fuel r4 with
              | some (tl, r5) => some (.cons k v tl, r5)
              | none => none
            | '}' :: r4 => some (.cons k v .nil, r4)
            | _ => none
          | none => none
        | _ => none
      | none => none
    | _ => none
end

/-- The continuation after an encoded value must not start with a digit
(inside arrays and objects it starts with a comma or a closing bracket). -/
def noDigitStart : List Char → Prop
  | [] => True
  | c :: _ => isDigitC c = false

/-- json.loads: parse one value and require only whitespace after it. -/
def loads (s : List Char) : Option Json :=
  match parseJson (s.length + 1) s with
  | some (j, rest) => if skipWs rest = [] then some j else none
  | none => none

/-! ## UTF-8 (str.encode / bytes.decode) -/

def utf8EncodeChar (c : Char) : List Nat :=
  let n := c.toNat
  if n < 0x80 then [n]
  else if n < 0x800 then [0xC0 + n / 64, 0x80 + n % 64]
  else if n < 0x10000 then [0xE0 + n / 4096, 0x80 + n / 64 % 64, 0x80 + n % 64]
  else [0xF0 + n / 0x40000, 0x80 + n / 4096 % 64, 0x80 + n / 64 % 64, 0x80 + n % 64]

def utf8Encode (s : List Char) : List Nat := (s.map utf8EncodeChar).flatten

def utf8DecodeAux : Nat → List Nat → Option (List Char)
  | _, [] => some []
  | 0, _ :: _ => none
  | fuel + 1, b :: rest =>
    if b < 0x80 then
      match utf8DecodeAux fuel rest with
      | some cs => some (Char.ofNat b :: cs)
      | none => none
    else if 0xC0 ≤ b ∧ b < 0xE0 then
      match rest with
      | b2 :: rest2 =>
        if 0x80 ≤ b2 ∧ b2 < 0xC0 then
          let n := (b - 0xC0) * 64 + (b2 - 0x80)
          if 0x80 ≤ n then
            match utf8DecodeAux fuel rest2 with
            | some cs => some (Char.ofNat n :: cs)
            | none => none
          else none
        else none
      | [] => none
    else if 0xE0 ≤ b ∧ b < 0xF0 then
      match rest with
      | b2 :: b3 :: rest2 =>
        if (0x80 ≤ b2 ∧ b2 < 0xC0) ∧ (0x80 ≤ b3 ∧ b3 < 0xC0) then
          let n := (b - 0xE0) * 4096 + (b2 - 0x80) * 64 + (b3 - 0x80)
          if 0x800 ≤ n ∧ ¬(0xd800 ≤ n ∧ n ≤ 0xdfff) then
            match utf8DecodeAux fuel rest2 with
            | some cs => some (Char.ofNat n :: cs)
            | none => none
          else none
        else none
      | _ => none
    else if 0xF0 ≤ b ∧ b < 0xF8 then
      match rest with
      | b2 :: b3 :: b4 :: rest2 =>
        if (0x80 ≤ b2 ∧ b2 < 0xC0) ∧ (0x80 ≤ b3 ∧ b3 < 0xC0) ∧ (0x80 ≤ b4 ∧ b4 < 0xC0) then
          let n := (b - 0xF0) * 0x40000 + (b2 - 0x80) * 4096 + (b3 - 0x80) * 64 + (b4 - 0x80)
          if 0x10000 ≤ n ∧ n ≤ 0x10FFFF then
            match utf8DecodeAux fuel rest2 with
            | some cs => some (Char.ofNat n :: cs)
            | none => none
          else none
        else none
      | _ => none
    else none

def utf8Decode (bs : List Nat) : Option (List Char) := utf8DecodeAux bs.length bs

/-! ## Frame codec (protocol.py, class Message) -/

structure WireMessage where
  msgType : MessageType
  payload : Json

def u32be (n : Nat) : List Nat :=
  [n / 0x1000000 % 256, n / 0x10000 % 256, n / 0x100 % 256, n % 256]

def u16be (n : Nat) : List Nat := [n / 0x100 % 256, n % 256]

/-- Message.serialize: json.dumps the payload, utf-8 encode it, and prepend
the big-endian u32 length (body plus the two type bytes) and u16 type. -/
def serializeMsg (m : WireMessage) : List Nat :=
  let payloadBytes := utf8Encode (dumpsJ m.payload)
  let length := payloadBytes.length + 2
  u32be length ++ u16be m.msgType.toCode ++ payloadBytes

/-- Message.deserialize, applied to the frame after the 4-byte length
prefix (which read_from_stream consumes): at least two bytes, a u16 type
that must name an enum member, then the JSON body; an empty body stands
for the empty dict. -/
def deserializeMsg (data : List Nat) : Option WireMessage :=
  match data with
  | b1 :: b2 :: payloadData =>
    match MessageType.ofCode (b1 * 256 + b2) with
    | some t =>
      if payloadData.isEmpty then some ⟨t, .obj .nil⟩
      else
        match utf8Decode payloadData with
        | some chars =>
          match loads chars with
          | some j => some ⟨t, j⟩
          | none => none
        | none => none
    | none => none
  | _ => none

/-! ## Session loop reaction to one frame (lobby_server.py handle_client /
process_message)

read_from_stream raises on a tag outside the enum (MessageType(value) in
deserialize raises ValueError); handle_client catches the exception and
closes the connection in its finally block.  A tag inside the enum but
absent from the handlers dict gets an ERROR reply and the loop reads on. -/

/-- The keys of the handlers dict in LobbyServer.process_message. -/
def lobbyHasHandler : MessageType → Bool
  | .AUTH_REQUEST | .REGISTER_REQUEST | .GAME_LIST_REQUEST | .GAME_DETAIL_REQUEST
  | .DOWNLOAD_REQUEST | .ROOM_LIST_REQUEST | .CREATE_ROOM | .JOIN_ROOM | .LEAVE_ROOM
  | .START_GAME_REQUEST | .SUBMIT_REVIEW | .GET_REVIEWS | .CHECK_UPDATE => true
  | _ => false

inductive SessionStep where
  | handled : SessionStep
  | errorReplyKeepOpen : SessionStep
  | connectionClosed : SessionStep
  deriving DecidableEq, Repr

/-- Fate of one received frame with the given u16 tag code. -/
def lobbyFrameStep (tagCode : Nat) : SessionStep :=
  match MessageType.ofCode tagCode with
  | none => .connectionClosed
  | some t => if lobbyHasHandler t then .handled else .errorReplyKeepOpen

/-! ## Rooms and memberships (db_manager.py)

The room mutators are translated from DatabaseManager; the bookkeeping of
the stored current_players column is decided by schema.sql, which
DatabaseManager._initialize_database loads but which is not part of the
sources here, so that bookkeeping is modelled from the spec (see the doc
comments below). -/

inductive RoomStatus where
  | waiting | playing | closed
  deriving DecidableEq, Repr

structure RoomRow where
  id : Nat
  gameId : Nat
  hostId : Nat
  name : String
  roomCode : String
  maxPlayers : Nat
  currentPlayers : Nat
  status : RoomStatus
  gamePort : Option Nat
  deriving DecidableEq, Repr

structure RoomsState where
  rooms : List RoomRow
  memberships : List (Nat × Nat)
  nextRoomId : Nat
  deriving DecidableEq, Repr

def initRooms : RoomsState := ⟨[], [], 1⟩

def membershipCount (st : RoomsState) (roomId : Nat) : Nat :=
  (st.memberships.filter (fun m => m.1 == roomId)).length

def hasMembership (st : RoomsState) (roomId playerId : Nat) : Bool :=
  st.memberships.any (fun m => m.1 == roomId && m.2 == playerId)

def findRoom (st : RoomsState) (roomId : Nat) : Option RoomRow :=
  st.rooms.find? (fun r => r.id == roomId)

def mapRoom (st : RoomsState) (roomId : Nat) (f : RoomRow → RoomRow) : RoomsState :=
  { st with rooms := st.rooms.map (fun r => if r.id = roomId then f r else r) }

/-- DatabaseManager.create_room: one INSERT into rooms followed by one
INSERT of the host into room_players.  Modelled from the spec for the part
decided by the missing schema.sql: the spec fixes the stored counter at
the end of the operation ("atomically inserts the room and the host as its
first member. current_players=1"). -/
def dbCreateRoom (st : RoomsState) (gameId hostId : Nat) (name roomCode : String)
    (maxPlayers : Nat) : RoomsState × Nat :=
  let rid := st.nextRoomId
  let room : RoomRow :=
    { id := rid, gameId := gameId, hostId := hostId, name := name, roomCode := roomCode,
      maxPlayers := maxPlayers, currentPlayers := 1, status := .waiting, gamePort := none }
  ({ rooms := room :: st.rooms, memberships := (rid, hostId) :: st.memberships,
     nextRoomId := rid + 1 }, rid)

/-- DatabaseManager.join_room: INSERT into room_players, False on an
IntegrityError (duplicate member, or a room id violating the foreign
key).  Modelled from the spec for the part decided by the missing
schema.sql: current_players equals the membership count after every
mutation, so a successful insert also bumps the room counter. -/
def dbJoinRoom (st : RoomsState) (roomId playerId : Nat) : RoomsState × Bool :=
  if (findRoom st roomId).isNone then (st, false)
  else if hasMembership st roomId playerId then (st, false)
  else
    (mapRoom { st with memberships := (roomId, playerId) :: st.memberships } roomId
       (fun r => { r with currentPlayers := r.currentPlayers + 1 }), true)

/-- DatabaseManager.leave_room: DELETE the membership row if present.
Modelled from the spec as for join: a deleted row decrements the counter. -/
def dbLeaveRoom (st : RoomsState) (roomId playerId : Nat) : RoomsState :=
  if hasMembership st roomId playerId then
    mapRoom { st with
        memberships := st.memberships.filter (fun m => !(m.1 == roomId && m.2 == playerId)) }
      roomId (fun r => { r with currentPlayers := r.currentPlayers - 1 })
  else st

/-- Python truthiness of the optional port argument of
update_room_status: None and 0 are falsy. -/
def portTruthy : Option Nat → Bool
  | some p => p != 0
  | none => false

/-- DatabaseManager.update_room_status: the port column is written only
when the Python value is truthy (a non-None, non-zero port). -/
def dbUpdateRoomStatus (st : RoomsState) (roomId : Nat) (status : RoomStatus)
    (gamePort : Option Nat) : RoomsState :=
  mapRoom st roomId (fun r =>
    if portTruthy gamePort then { r with status := status, gamePort := gamePort }
    else { r with status := status })

/-- The store mutations reachable through DatabaseManager. -/
inductive RoomOp where
  | create (gameId hostId : Nat) (name roomCode : String) (maxPlayers : Nat)
  | join (roomId playerId : Nat)
  | leave (roomId playerId : Nat)
  | setStatus (roomId : Nat) (status : RoomStatus) (gamePort : Option Nat)

def applyRoomOp (st : RoomsState) : RoomOp → RoomsState
  | .create g h n c m => (dbCreateRoom st g h n c m).1
  | .join r p => (dbJoinRoom st r p).1
  | .leave r p => dbLeaveRoom st r p
  | .setStatus r s p => dbUpdateRoomStatus st r s p

def runRoomOps (ops : List RoomOp) : RoomsState := ops.foldl applyRoomOp initRooms

/-- Auxiliary well-formedness of the rooms store, maintained by every
mutation: room and membership ids stay below the id counter, membership
rows are keyed by (room_id, player_id) (the UNIQUE constraint), and the
stored counter matches the membership count. -/
def roomsWF (st : RoomsState) : Prop :=
  (∀ r ∈ st.rooms, r.id < st.nextRoomId) ∧
  (∀ m ∈ st.memberships, m.1 < st.nextRoomId) ∧
  (∀ rid pid, st.memberships.countP (fun m => m.1 == rid && m.2 == pid) ≤ 1) ∧
  (∀ r ∈ st.rooms, r.currentPlayers = membershipCount st r.id)

/-- Concrete mutation sequence exercising the room invariant. -/
def c1DemoOps : List RoomOp := [.create 1 7 "Main" "AB12CD34" 4, .join 1 8]

def c1DemoRoom : RoomRow :=
  { id := 1, gameId := 1, hostId := 7, name := "Main", roomCode := "AB12CD34",
    maxPlayers := 4, currentPlayers := 2, status := .waiting, gamePort := none }

/-! ## Games, reviews, downloads, versions (db_manager.py) -/

inductive GameStatus where
  | active | inactive
  deriving DecidableEq, Repr

structure GameRow where
  id : Nat
  developerId : Nat
  name : String
  description : String
  currentVersion : String
  minPlayers : Nat
  maxPlayers : Nat
  gameType : String
  status : GameStatus
  downloadCount : Nat
  averageRating : ℚ
  ratingCount : Nat
  deriving DecidableEq, Repr

structure ReviewRow where
  gameId : Nat
  playerId : Nat
  rating : Nat
  comment : String
  deriving DecidableEq, Repr

structure DownloadRow where
  gameId : Nat
  playerId : Nat
  version : String
  deriving DecidableEq, Repr

structure VersionRow where
  gameId : Nat
  version : String
  changelog : String
  filePath : String
  fileSize : Nat
  checksum : String
  deriving DecidableEq, Repr

structure CatalogState where
  games : List GameRow
  versions : List VersionRow
  downloads : List DownloadRow
  reviews : List ReviewRow
  nextGameId : Nat
  deriving DecidableEq, Repr

def initCatalog : CatalogState := ⟨[], [], [], [], 1⟩

def findGame (st : CatalogState) (gameId : Nat) : Option GameRow :=
  st.games.find? (fun g => g.id == gameId)

def mapGame (st : CatalogState) (gameId : Nat) (f : GameRow → GameRow) : CatalogState :=
  { st with games := st.games.map (fun g => if g.id = gameId then f g else g) }

/-- DatabaseManager.create_game: INSERT; None on a duplicate name. -/
def dbCreateGame (st : CatalogState) (name description : String) (developerId : Nat)
    (version : String) (minPlayers maxPlayers : Nat) (gameType : String) :
    CatalogState × Option Nat :=
  if st.games.any (fun g => g.name == name) then (st, none)
  else
    let gid := st.nextGameId
    ({ st with
        games := { id := gid, developerId := developerId, name := name,
                   description := description, currentVersion := version,
                   minPlayers := minPlayers, maxPlayers := maxPlayers, gameType := gameType,
                   status := .active, downloadCount := 0, averageRating := 0,
                   ratingCount := 0 } :: st.games,
        nextGameId := gid + 1 }, some gid)

/-- DatabaseManager.update_game_status. -/
def dbUpdateGameStatus (st : CatalogState) (gameId : Nat) (status : GameStatus) : CatalogState :=
  mapGame st gameId (fun g => { g with status := status })

/-- DatabaseManager.update_game_version.  Defined in db_manager.py but
called from no handler. -/
def dbUpdateGameVersion (st : CatalogState) (gameId : Nat) (newVersion : String) : CatalogState :=
  mapGame st gameId (fun g => { g with currentVersion := newVersion })

/-- DatabaseManager.increment_download_count. -/
def dbIncrementDownloadCount (st : CatalogState) (gameId : Nat) : CatalogState :=
  mapGame st gameId (fun g => { g with downloadCount := g.downloadCount + 1 })

/-- DatabaseManager.record_download: one INSERT plus the counter bump. -/
def dbRecordDownload (st : CatalogState) (gameId playerId : Nat) (version : String) :
    CatalogState :=
  dbIncrementDownloadCount
    { st with downloads := ⟨gameId, playerId, version⟩ :: st.downloads } gameId

def downloadsFor (st : CatalogState) (gameId : Nat) : List DownloadRow :=
  st.downloads.filter (fun d => d.gameId == gameId)

def findVersion (st : CatalogState) (gameId : Nat) (version : String) : Option VersionRow :=
  st.versions.find? (fun v => v.gameId == gameId && v.version == version)

/-- DatabaseManager.add_game_version: INSERT; None when (game_id, version)
already exists (unique key). -/
def dbAddGameVersion (st : CatalogState) (gameId : Nat) (version changelog filePath : String)
    (fileSize : Nat) (checksum : String) : CatalogState × Option Nat :=
  if (findVersion st gameId version).isSome then (st, none)
  else
    ({ st with versions :=
        ⟨gameId, version, changelog, filePath, fileSize, checksum⟩ :: st.versions }, some 1)

/-- DatabaseManager.get_latest_version: newest row first (rows are kept
newest-first here, matching ORDER BY created_at DESC LIMIT 1). -/
def dbGetLatestVersion (st : CatalogState) (gameId : Nat) : Option VersionRow :=
  (st.versions.filter (fun v => v.gameId == gameId)).head?

def reviewsFor (st : CatalogState) (gameId : Nat) : List ReviewRow :=
  st.reviews.filter (fun r => r.gameId == gameId)

/-- AVG(rating): the exact rational mean of the review ratings (0 with no
rows, matching the 0.0 default of the cached column). -/
def ratingMean (st : CatalogState) (gameId : Nat) : ℚ :=
  if (reviewsFor st gameId).length = 0 then 0
  else mkRat (((reviewsFor st gameId).map (fun r => r.rating)).sum : Int)
        ((reviewsFor st gameId).length)

/-- Modelled from the spec for the part decided by the missing schema.sql:
"upsert_review(game_id, player_id, rating, comment) recomputes the game's
(average_rating, rating_count)" — the cached aggregate on the game row is
refreshed from the review rows on every upsert. -/
def refreshRatingAggregate (st : CatalogState) (gameId : Nat) : CatalogState :=
  mapGame st gameId (fun g =>
    { g with ratingCount := (reviewsFor st gameId).length,
             averageRating := ratingMean st gameId })

/-- The row effect of INSERT ... ON CONFLICT(game_id, player_id) DO
UPDATE: overwrite the row with the key if present, insert otherwise. -/
def upsertReviewRows (rows : List ReviewRow) (gameId playerId rating : Nat)
    (comment : String) : List ReviewRow :=
  if rows.any (fun r => r.gameId == gameId && r.playerId == playerId) then
    rows.map (fun r =>
      if r.gameId == gameId && r.playerId == playerId then
        { r with rating := rating, comment := comment }
      else r)
  else ⟨gameId, playerId, rating, comment⟩ :: rows

/-- The catalog with the review rows replaced by their upsert result. -/
def upsertState (st : CatalogState) (gameId playerId rating : Nat)
    (comment : String) : CatalogState :=
  { st with reviews := upsertReviewRows st.reviews gameId playerId rating comment }

/-- DatabaseManager.add_review: INSERT ... ON CONFLICT(game_id, player_id)
DO UPDATE; False when the statement raises (foreign key: game missing). -/
def dbAddReview (st : CatalogState) (gameId playerId rating : Nat) (comment : String) :
    CatalogState × Bool :=
  if (findGame st gameId).isNone then (st, false)
  else
    (refreshRatingAggregate (upsertState st gameId playerId rating comment) gameId, true)

/-- Banker's rounding to an integer: the behaviour of Python round on the
exact value (floats are modelled as exact rationals). -/
def roundHalfEvenQ (q : ℚ) : ℤ :=
  if q - ⌊q⌋ < 1/2 then ⌊q⌋
  else if (1 : ℚ)/2 < q - ⌊q⌋ then ⌊q⌋ + 1
  else if 2 ∣ ⌊q⌋ then ⌊q⌋ else ⌊q⌋ + 1

/-- Python round(x, 1), as the lobby and developer projections apply to
average_rating. -/
def roundTo1 (q : ℚ) : ℚ := (roundHalfEvenQ (q * 10) : ℚ) / 10

/-- The rating field in the projections of handle_game_list,
handle_game_detail and handle_my_games. -/
def projectedRating (g : GameRow) : ℚ := roundTo1 g.averageRating

/-! ## Download handler (lobby_server.py handle_download_request) -/

inductive DownloadOutcome where
  | errorBeforeMeta (msg : String)
  | errorAfterMeta (msg : String)
  | completed (bytesSent : Nat)
  deriving DecidableEq, Repr

/-- The version the download handler streams: the requested one, or the
latest when the request names none. -/
def resolveVersion (st : CatalogState) (gameId : Nat) (version : Option String) :
    Option VersionRow :=
  match version with
  | some v => findVersion st gameId v
  | none => dbGetLatestVersion st gameId

/-- lobby_server.handle_download_request.  fileOnDisk models
Path(file_path).exists(); streamOk injects the outcome of the
open/read/write loop that streams the chunks after DOWNLOAD_META. -/
def handleDownloadRequest (st : CatalogState) (user : Option Nat) (gameId : Nat)
    (version : Option String) (fileOnDisk streamOk : Bool) :
    CatalogState × DownloadOutcome :=
  match user with
  | none => (st, .errorBeforeMeta "Not authenticated")
  | some playerId =>
    match findGame st gameId with
    | none => (st, .errorBeforeMeta "Game not available")
    | some g =>
      if g.status ≠ .active then (st, .errorBeforeMeta "Game not available")
      else
        match resolveVersion st gameId version with
        | none => (st, .errorBeforeMeta "Version not found")
        | some vi =>
          if ¬ fileOnDisk then (st, .errorBeforeMeta "Game file not found on server")
          else if ¬ streamOk then (st, .errorAfterMeta "Download failed")
          else (dbRecordDownload st gameId playerId vi.version, .completed vi.fileSize)

def DownloadOutcome.isCompleted : DownloadOutcome → Bool
  | .completed _ => true
  | _ => false

/-- The catalog mutations reachable through the handlers. -/
inductive CatalogOp where
  | createGame (name description : String) (developerId : Nat) (version : String)
      (minPlayers maxPlayers : Nat) (gameType : String)
  | submitReview (gameId playerId rating : Nat) (comment : String)
  | download (user : Option Nat) (gameId : Nat) (version : Option String)
      (fileOnDisk streamOk : Bool)
  | addVersion (gameId : Nat) (version changelog filePath : String) (fileSize : Nat)
      (checksum : String)
  | setGameStatus (gameId : Nat) (status : GameStatus)

def applyCatalogOp (st : CatalogState) : CatalogOp → CatalogState
  | .createGame n d dev v mi ma t => (dbCreateGame st n d dev v mi ma t).1
  | .submitReview g p r c => (dbAddReview st g p r c).1
  | .download u g v f s => (handleDownloadRequest st u g v f s).1
  | .addVersion g v cl fp fs ck => (dbAddGameVersion st g v cl fp fs ck).1
  | .setGameStatus g s => dbUpdateGameStatus st g s

def runCatalogOps (ops : List CatalogOp) : CatalogState := ops.foldl applyCatalogOp initCatalog

/-- Auxiliary well-formedness of the catalog, maintained by every
handler-reachable mutation: row ids stay below the id counter and the two
cached aggregates on each game row match the underlying rows. -/
def catalogWF (st : CatalogState) : Prop :=
  (∀ g ∈ st.games, g.id < st.nextGameId) ∧
  (∀ rv ∈ st.reviews, rv.gameId < st.nextGameId) ∧
  (∀ d ∈ st.downloads, d.gameId < st.nextGameId) ∧
  (∀ g ∈ st.games, g.ratingCount = (reviewsFor st g.id).length ∧
    g.averageRating = ratingMean st g.id) ∧
  (∀ g ∈ st.games, g.downloadCount = (downloadsFor st g.id).length)

/-- Concrete sequence exercising the review-aggregate invariant: one game,
one player reviewing it twice (the second submission overwrites). -/
def c2DemoOps : List CatalogOp :=
  [.createGame "Connect4" "classic" 5 "1.0.0" 2 2 "cli",
   .submitReview 1 9 4 "ok",
   .submitReview 1 9 5 "great"]

def c2DemoGame : GameRow :=
  { id := 1, developerId := 5, name := "Connect4", description := "classic",
    currentVersion := "1.0.0", minPlayers := 2, maxPlayers := 2, gameType := "cli",
    status := .active, downloadCount := 0, averageRating := 5, ratingCount := 1 }

/-- Concrete sequence exercising the download counter: one game with a
version row, one failed stream and two completed downloads. -/
def c7DemoOps : List CatalogOp :=
  [.createGame "Connect4" "classic" 5 "1.0.0" 2 2 "cli",
   .addVersion 1 "1.0.0" "Initial release" "games/1/1.0.0/game_package.zip" 20000 "c",
   .download (some 9) 1 none true false,
   .download (some 9) 1 none true true,
   .download (some 10) 1 (some "1.0.0") true true]

def c7DemoGame : GameRow :=
  { id := 1, developerId := 5, name := "Connect4", description := "classic",
    currentVersion := "1.0.0", minPlayers := 2, maxPlayers := 2, gameType := "cli",
    status := .active, downloadCount := 2, averageRating := 0, ratingCount := 0 }

/-! ## Supervisor and room lifecycle (game_server_manager.py,
lobby_server.py room handlers) -/

structure SupervisorEntry where
  roomId : Nat
  port : Nat
  gameId : Nat
  deriving DecidableEq, Repr

structure LobbyState where
  roomsDb : RoomsState
  supervisor : List SupervisorEntry
  nextPort : Nat
  deriving DecidableEq, Repr

/-- GAME_SERVER_START_PORT = 9000 (config.py). -/
def initLobby : LobbyState := ⟨initRooms, [], 9000⟩

inductive LobbyEvent where
  | createRoom (gameId hostId : Nat) (name roomCode : String) (maxPlayers : Nat)
  | joinRoom (userId : Option Nat) (roomId : Nat)
  | leaveRoom (userId : Option Nat) (roomId : Nat)
  | startGame (userId : Option Nat) (roomId : Nat) (gameOk spawnOk : Bool)
  | childExit (roomId : Nat)
  | sweepRoom (roomId : Nat)

/-- GameServerManager.spawn_game_server: allocate the next port (the
counter advances whether or not the spawn succeeds past the allocation),
and on success register the supervisor entry and return the port. -/
def spawnGameServer (st : LobbyState) (roomId gameId : Nat) (spawnOk : Bool) :
    LobbyState × Option Nat :=
  let port := st.nextPort
  let st1 := { st with nextPort := port + 1 }
  if spawnOk then
    ({ st1 with supervisor := ⟨roomId, port, gameId⟩ :: st1.supervisor }, some port)
  else (st1, none)

/-- GameServerManager._monitor_process after the child exits: the finally
block removes the supervisor entry; nothing else happens (in particular
the rooms table is not touched). -/
def monitorChildExit (st : LobbyState) (roomId : Nat) : LobbyState :=
  { st with supervisor := st.supervisor.filter (fun e => e.roomId != roomId) }

def applyLobbyEvent (st : LobbyState) : LobbyEvent → LobbyState
  | .createRoom g h n c m => { st with roomsDb := (dbCreateRoom st.roomsDb g h n c m).1 }
  | .joinRoom u rid =>
    match u with
    | none => st
    | some pid =>
      match findRoom st.roomsDb rid with
      | none => st
      | some room =>
        if room.status ≠ .waiting then st
        else if room.maxPlayers ≤ room.currentPlayers then st
        else { st with roomsDb := (dbJoinRoom st.roomsDb rid pid).1 }
  | .leaveRoom u rid =>
    match u with
    | none => st
    | some pid =>
      match findRoom st.roomsDb rid with
      | some room =>
        if room.hostId = pid then
          { st with roomsDb := dbUpdateRoomStatus st.roomsDb rid .closed none }
        else { st with roomsDb := dbLeaveRoom st.roomsDb rid pid }
      | none => { st with roomsDb := dbLeaveRoom st.roomsDb rid pid }
  | .startGame u rid gameOk spawnOk =>
    match u with
    | none => st
    | some pid =>
      match findRoom st.roomsDb rid with
      | none => st
      | some room =>
        if room.hostId ≠ pid then st
        else if ¬ gameOk then st
        else
          let res := spawnGameServer st rid room.gameId spawnOk
          match res.2 with
          | none => res.1
          | some port =>
            { res.1 with roomsDb := dbUpdateRoomStatus res.1.roomsDb rid .playing (some port) }
  | .childExit rid => monitorChildExit st rid
  | .sweepRoom rid =>
    match findRoom st.roomsDb rid with
    | some room =>
      if room.status = .waiting then
        { st with roomsDb := dbUpdateRoomStatus st.roomsDb rid .closed none }
      else st
    | none => st

def runLobbyEvents (evs : List LobbyEvent) : LobbyState := evs.foldl applyLobbyEvent initLobby

/-- Auxiliary invariant for the room lifecycle: the port counter is never
zero (it starts at 9000 and only grows), and a playing room has a port. -/
def lobbyWF (st : LobbyState) : Prop :=
  st.nextPort ≠ 0 ∧
  ∀ r ∈ st.roomsDb.rooms, r.status = RoomStatus.playing → r.gamePort ≠ none

/-- Create a room, start its game (spawn succeeds), then let the child
exit: the room is left in playing with no supervisor entry. -/
def c3DemoEvents : List LobbyEvent :=
  [.createRoom 1 7 "Main" "AB12CD34" 4, .startGame (some 7) 1 true true, .childExit 1]

def c3DemoEvents2 : List LobbyEvent :=
  [.createRoom 1 7 "Main" "AB12CD34" 4, .startGame (some 7) 1 true true]

def c3DemoRoom : RoomRow :=
  { id := 1, gameId := 1, hostId := 7, name := "Main", roomCode := "AB12CD34",
    maxPlayers := 4, currentPlayers := 1, status := .playing, gamePort := some 9000 }

/-! ## Developer server (developer_server.py)

The in-memory uploads map, the temporary sink and the artifact tree are
part of the state; SHA-256 over the received bytes is threaded as an
explicit hash parameter (hashlib is outside the repository). -/

inductive UploadMode where
  | newGame | updateGame
  deriving DecidableEq, Repr

structure UploadInfo where
  mode : UploadMode
  name : String
  description : String
  version : String
  minPlayers : Nat
  maxPlayers : Nat
  gameType : String
  gameId : Nat
  gameName : String
  changelog : Option String
  fileSize : Nat
  checksum : String
  receivedBytes : Nat
  sinkOpen : Bool
  content : List Nat
  deriving DecidableEq, Repr

structure DevServerState where
  catalog : CatalogState
  clients : List (String × Option Nat)
  uploads : List (String × UploadInfo)
  tempFiles : List String
  packages : List (Nat × String)
  currentLinks : List (Nat × String)
  deriving DecidableEq, Repr

def lookupUpload (st : DevServerState) (c : String) : Option UploadInfo :=
  (st.uploads.find? (fun u => u.1 == c)).map (fun u => u.2)

def setUpload (st : DevServerState) (c : String) (u : UploadInfo) : DevServerState :=
  { st with uploads := (c, u) :: st.uploads.filter (fun x => !(x.1 == c)) }

def removeUpload (st : DevServerState) (c : String) : DevServerState :=
  { st with uploads := st.uploads.filter (fun x => !(x.1 == c)) }

def addTempFile (st : DevServerState) (c : String) : DevServerState :=
  { st with tempFiles := c :: st.tempFiles.filter (fun x => !(x == c)) }

def removeTempFile (st : DevServerState) (c : String) : DevServerState :=
  { st with tempFiles := st.tempFiles.filter (fun x => !(x == c)) }

def setCurrentLink (st : DevServerState) (gid : Nat) (v : String) : DevServerState :=
  { st with currentLinks := (gid, v) :: st.currentLinks.filter (fun x => !(x.1 == gid)) }

def lookupCurrentLink (st : DevServerState) (gid : Nat) : Option String :=
  (st.currentLinks.find? (fun x => x.1 == gid)).map (fun x => x.2)

inductive DevReply where
  | uploadReady (expectedSize : Nat)
  | chunkAck (received : Nat) (progress : ℚ)
  | uploadOk (gameId : Nat)
  | errorReply (msg : String)
  deriving DecidableEq, Repr

def DevReply.isError : DevReply → Bool
  | .errorReply _ => true
  | _ => false

/-- developer_server.handle_upload_start. -/
def handleUploadStart (st : DevServerState) (clientId : String) (user : Option Nat)
    (name description version : String) (minPlayers maxPlayers : Nat) (gameType : String)
    (fileSize : Nat) (checksum : String) : DevServerState × DevReply :=
  match user with
  | none => (st, .errorReply "Not authenticated")
  | some _ =>
    if name = "" ∨ fileSize = 0 ∨ checksum = "" then (st, .errorReply "Missing required fields")
    else if st.catalog.games.any (fun g => g.name == name) then
      (st, .errorReply "Game name already exists")
    else
      let u : UploadInfo :=
        { mode := .newGame, name := name, description := description, version := version,
          minPlayers := minPlayers, maxPlayers := maxPlayers, gameType := gameType,
          gameId := 0, gameName := "", changelog := none, fileSize := fileSize,
          checksum := checksum, receivedBytes := 0, sinkOpen := true, content := [] }
      (addTempFile (setUpload st clientId u) clientId, .uploadReady fileSize)

/-- developer_server.handle_update_game. -/
def handleUpdateGame (st : DevServerState) (clientId : String) (user : Option Nat)
    (gameId : Nat) (newVersion changelog : String) (fileSize : Nat) (checksum : String) :
    DevServerState × DevReply :=
  match user with
  | none => (st, .errorReply "Not authenticated")
  | some uid =>
    match findGame st.catalog gameId with
    | none => (st, .errorReply "Game not found or not owned by you")
    | some game =>
      if game.developerId ≠ uid then (st, .errorReply "Game not found or not owned by you")
      else if fileSize = 0 ∨ checksum = "" then (st, .errorReply "File info required")
      else
        let u : UploadInfo :=
          { mode := .updateGame, name := "", description := "", version := newVersion,
            minPlayers := 0, maxPlayers := 0, gameType := "", gameId := gameId,
            gameName := game.name, changelog := some changelog, fileSize := fileSize,
            checksum := checksum, receivedBytes := 0, sinkOpen := true, content := [] }
        (addTempFile (setUpload st clientId u) clientId, .uploadReady fileSize)

/-- developer_server.handle_upload_chunk: write the chunk, bump
received_bytes and acknowledge; there is no comparison of the cumulative
size against expected_size. -/
def handleUploadChunk (st : DevServerState) (clientId : String) (data : List Nat) :
    DevServerState × DevReply :=
  match lookupUpload st clientId with
  | none => (st, .errorReply "No upload in progress")
  | some u =>
    if data.isEmpty then (st, .errorReply "No data in chunk")
    else
      let u' := { u with content := u.content ++ data,
                         receivedBytes := u.receivedBytes + data.length }
      (setUpload st clientId u',
       .chunkAck u'.receivedBytes (roundTo1 ((u'.receivedBytes * 100 : ℚ) / u.fileSize)))

/-- The tail of handle_upload_complete after the mode dispatch: move the
file into the artifact tree, extract (extractionOk injects the zipfile and
filesystem errors of that block, routed to the except branch), repoint the
current link, append the version row with its return value ignored, clear
the in-flight entry and answer UPLOAD_SUCCESS. -/
def finalizeUpload (st : DevServerState) (clientId : String) (u : UploadInfo) (gid : Nat)
    (extractionOk : Bool) : DevServerState × DevReply :=
  if ¬ extractionOk then
    (removeUpload { removeTempFile st clientId with
        packages := (gid, u.version) :: st.packages } clientId,
     .errorReply "Upload failed")
  else
    (removeUpload
      { setCurrentLink { removeTempFile st clientId with
          packages := (gid, u.version) :: st.packages } gid u.version with
        catalog := (dbAddGameVersion st.catalog gid u.version
          (u.changelog.getD (match u.mode with
            | .newGame => "Initial release"
            | .updateGame => "Update"))
          ("games/" ++ toString gid ++ "/" ++ u.version ++ "/game_package.zip")
          u.fileSize u.checksum).1 } clientId,
     .uploadOk gid)

/-- developer_server.handle_upload_complete.  hash stands for the SHA-256
of hashlib over the received file. -/
def handleUploadComplete (hash : List Nat → String) (st : DevServerState) (clientId : String)
    (user : Option Nat) (extractionOk : Bool) : DevServerState × DevReply :=
  match user with
  | none => (st, .errorReply "Not authenticated")
  | some uid =>
    match lookupUpload st clientId with
    | none => (st, .errorReply "No upload in progress")
    | some u =>
      if hash u.content ≠ u.checksum then
        (removeUpload (removeTempFile
          (setUpload st clientId { u with sinkOpen := false }) clientId) clientId,
         .errorReply "Checksum mismatch - file corrupted")
      else
        match u.mode with
        | .updateGame =>
          match findGame st.catalog u.gameId with
          | none =>
            (removeUpload (removeTempFile
              (setUpload st clientId { u with sinkOpen := false }) clientId) clientId,
             .errorReply "Game not found or not owned by you")
          | some game =>
            if game.developerId ≠ uid then
              (removeUpload (removeTempFile
                (setUpload st clientId { u with sinkOpen := false }) clientId) clientId,
               .errorReply "Game not found or not owned by you")
            else
              finalizeUpload (setUpload st clientId { u with sinkOpen := false })
                clientId u u.gameId extractionOk
        | .newGame =>
          match (dbCreateGame st.catalog u.name u.description uid u.version
              u.minPlayers u.maxPlayers u.gameType).2 with
          | none =>
            (removeUpload (removeTempFile
              (setUpload st clientId { u with sinkOpen := false }) clientId) clientId,
             .errorReply "Failed to create game entry")
          | some gid =>
            finalizeUpload { setUpload st clientId { u with sinkOpen := false } with
                catalog := (dbCreateGame st.catalog u.name u.description uid u.version
                  u.minPlayers u.maxPlayers u.gameType).1 }
              clientId u gid extractionOk

/-- developer_server.handle_client, finally block on disconnect: the
connection entry is dropped; the uploads map, the open sink and the
temporary file are left as they are. -/
def devDisconnect (st : DevServerState) (clientId : String) : DevServerState :=
  { st with clients := st.clients.filter (fun x => !(x.1 == clientId)) }

/-- The received count carried by a CHUNK_RECEIVED acknowledgement. -/
def DevReply.receivedOf : DevReply → Option Nat
  | .chunkAck r _ => some r
  | _ => none

/-! ## Developer-server demo fixtures -/

/-- Demo fixture: developer 7 owns game 1, current_version 1.0.0. -/
def devDemoGame : GameRow :=
  { id := 1, developerId := 7, name := "Snake", description := "",
    currentVersion := "1.0.0", minPlayers := 2, maxPlayers := 2, gameType := "cli",
    status := .active, downloadCount := 0, averageRating := 0, ratingCount := 0 }

def devDemoCatalog : CatalogState :=
  { games := [devDemoGame],
    versions := [⟨1, "1.0.0", "Initial release", "games/1/1.0.0/game_package.zip", 3, "h0"⟩],
    downloads := [], reviews := [], nextGameId := 2 }

/-- Demo developer server: client "c" connected and authenticated as 7. -/
def devDemoStart : DevServerState :=
  { catalog := devDemoCatalog, clients := [("c", some 7)], uploads := [],
    tempFiles := [], packages := [], currentLinks := [(1, "1.0.0")] }

/-- A hash standing in for SHA-256 in the demos. -/
def devDemoHash : List Nat → String := fun _ => "h1"

/-- C4 demo flow, step 1: UPDATE_GAME on game 1 towards version 2.0.0. -/
def c4AfterUpdate : DevServerState :=
  (handleUpdateGame devDemoStart "c" (some 7) 1 "2.0.0" "fixes" 3 "h1").1

/-- C4 demo flow, step 2: one 3-byte chunk. -/
def c4AfterChunk : DevServerState := (handleUploadChunk c4AfterUpdate "c" [1, 2, 3]).1

/-- C4 demo flow, step 3: UPLOAD_COMPLETE with a matching checksum and a
clean extraction. -/
def c4Final : DevServerState × DevReply :=
  handleUploadComplete devDemoHash c4AfterChunk "c" (some 7) true

/-- An in-flight update upload for client "c" on game 1. -/
def c5Upload : UploadInfo :=
  { mode := .updateGame, name := "", description := "", version := "2.0.0",
    minPlayers := 0, maxPlayers := 0, gameType := "", gameId := 1, gameName := "Snake",
    changelog := some "fixes", fileSize := 3, checksum := "h1",
    receivedBytes := 0, sinkOpen := true, content := [] }

def c5State : DevServerState :=
  { catalog := devDemoCatalog, clients := [("c", some 7)],
    uploads := [("c", c5Upload)], tempFiles := ["c"], packages := [],
    currentLinks := [(1, "1.0.0")] }

/-- An in-flight upload announcing expected_size 10. -/
def c9Upload : UploadInfo :=
  { mode := .updateGame, name := "", description := "", version := "2.0.0",
    minPlayers := 0, maxPlayers := 0, gameType := "", gameId := 1, gameName := "Snake",
    changelog := some "fixes", fileSize := 10, checksum := "h1",
    receivedBytes := 0, sinkOpen := true, content := [] }

def c9State : DevServerState :=
  { catalog := devDemoCatalog, clients := [("c", some 7)],
    uploads := [("c", c9Upload)], tempFiles := ["c"], packages := [],
    currentLinks := [(1, "1.0.0")] }

/-- An in-flight update upload whose (game_id, version) pair already has a
row in game_versions. -/
def c10Upload : UploadInfo :=
  { mode := .updateGame, name := "", description := "", version := "1.0.0",
    minPlayers := 0, maxPlayers := 0, gameType := "", gameId := 1, gameName := "Snake",
    changelog := some "rerelease", fileSize := 3, checksum := "h1",
    receivedBytes := 3, sinkOpen := true, content := [9, 9, 9] }

def c10State : DevServerState :=
  { catalog := devDemoCatalog, clients := [("c", some 7)],
    uploads := [("c", c10Upload)], tempFiles := ["c"], packages := [],
    currentLinks := [(1, "1.0.0")] }

/-! # Theorems -/

/-- C6 counterexample: 0x9999 is not a known message type, yet the session
does not reply ERROR and keep the connection open: MessageType(0x9999)
raises inside deserialize, and handle_client closes the connection from
its finally block without writing anything. -/
theorem C6_counterexample :
    MessageType.ofCode 0x9999 = none ∧
    lobbyFrameStep 0x9999 = SessionStep.connectionClosed ∧
    lobbyFrameStep 0x9999 ≠ SessionStep.errorReplyKeepOpen :=
  ⟨by decide, by decide, by decide⟩

/-- C6 (amended): a frame whose tag is an enum member without a registered
handler is answered with an ERROR reply and the session loop keeps
reading; a frame whose tag is outside the MessageType enum makes the
deserializing read raise, and the connection is closed without a reply. -/
theorem C6_unknown_tag_behaviour :
    (∀ code t, MessageType.ofCode code = some t → lobbyHasHandler t = false →
      lobbyFrameStep code = SessionStep.errorReplyKeepOpen) ∧
    (∀ code, MessageType.ofCode code = none →
      lobbyFrameStep code = SessionStep.connectionClosed) := by
  constructor
  · intro code t h hh
    simp [lobbyFrameStep, h, hh]
  · intro code h
    simp [lobbyFrameStep, h]

/-- C6 witness, at tag 0x00FD (HEARTBEAT, an enum member the lobby has no
handler for) and at tag 0x9999 (outside the enum). -/
theorem C6_witness :
    lobbyFrameStep 0x00FD = SessionStep.errorReplyKeepOpen ∧
    lobbyFrameStep 0x9999 = SessionStep.connectionClosed :=
  ⟨C6_unknown_tag_behaviour.1 0x00FD .HEARTBEAT (by decide) (by decide),
   C6_unknown_tag_behaviour.2 0x9999 (by decide)⟩

/-! ## C1 helper lemmas -/

theorem mapRoom_memberships (st : RoomsState) (roomId : Nat) (f : RoomRow → RoomRow) :
    (mapRoom st roomId f).memberships = st.memberships := rfl

theorem mapRoom_nextRoomId (st : RoomsState) (roomId : Nat) (f : RoomRow → RoomRow) :
    (mapRoom st roomId f).nextRoomId = st.nextRoomId := rfl

theorem mem_mapRoom {st : RoomsState} {roomId : Nat} {f : RoomRow → RoomRow} {r' : RoomRow}
    (h : r' ∈ (mapRoom st roomId f).rooms) :
    ∃ r, r ∈ st.rooms ∧ r' = if r.id = roomId then f r else r := by
  simp only [mapRoom, List.mem_map] at h
  obtain ⟨r, hr, he⟩ := h
  exact ⟨r, hr, he.symm⟩

theorem membershipCount_eq_countP (st : RoomsState) (rid : Nat) :
    membershipCount st rid = st.memberships.countP (fun m => m.1 == rid) := by
  simp [membershipCount, List.countP_eq_length_filter]

theorem findRoom_some {st : RoomsState} {roomId : Nat} {r : RoomRow}
    (h : findRoom st roomId = some r) : r ∈ st.rooms ∧ r.id = roomId := by
  refine ⟨List.mem_of_find?_eq_some h, ?_⟩
  have h1 := List.find?_some h
  simpa using h1

theorem hasMembership_true_countP {st : RoomsState} {rid pid : Nat}
    (h : hasMembership st rid pid = true) :
    1 ≤ st.memberships.countP (fun m => m.1 == rid && m.2 == pid) := by
  simp only [hasMembership, List.any_eq_true] at h
  obtain ⟨m, hm, hp⟩ := h
  have := List.countP_pos_iff (p := fun m => m.1 == rid && m.2 == pid)
    (l := st.memberships) |>.mpr ⟨m, hm, hp⟩
  omega

theorem hasMembership_false_countP {st : RoomsState} {rid pid : Nat}
    (h : hasMembership st rid pid = false) :
    st.memberships.countP (fun m => m.1 == rid && m.2 == pid) = 0 := by
  rw [List.countP_eq_zero]
  intro m hm
  simp only [hasMembership] at h
  have := List.any_eq_false.mp h m hm
  simpa using this

theorem filter_cons_t {α : Type} (p : α → Bool) (a : α) (l : List α) (h : p a = true) :
    (a :: l).filter p = a :: l.filter p := by
  simp [List.filter_cons, h]

theorem filter_cons_f {α : Type} (p : α → Bool) (a : α) (l : List α) (h : p a = false) :
    (a :: l).filter p = l.filter p := by
  simp [List.filter_cons, h]

theorem countP_cons_t {α : Type} (p : α → Bool) (a : α) (l : List α) (h : p a = true) :
    (a :: l).countP p = l.countP p + 1 := by
  simp [List.countP_cons, h]

theorem countP_cons_f {α : Type} (p : α → Bool) (a : α) (l : List α) (h : p a = false) :
    (a :: l).countP p = l.countP p := by
  simp [List.countP_cons, h]

/-- Removing the (rid, pid) membership rows removes exactly the pair count
from the per-room count of rid, and nothing from any other room. -/
theorem countP_filter_remove (l : List (Nat × Nat)) (rid pid r : Nat) :
    ((l.filter fun m => !(m.1 == rid && m.2 == pid)).countP fun m => m.1 == r)
      + (if r = rid then l.countP fun m => m.1 == rid && m.2 == pid else 0)
    = l.countP fun m => m.1 == r := by
  induction l with
  | nil => simp
  | cons m tl ih =>
    by_cases hrr : r = rid
    · subst hrr
      simp only [eq_self_iff_true, if_true] at ih ⊢
      cases hP : (m.1 == r && m.2 == pid) with
      | true =>
        have hm1 : (m.1 == r) = true := ((Bool.and_eq_true _ _).mp hP).1
        have hq : (!(m.1 == r && m.2 == pid)) = false := by rw [hP]; rfl
        rw [filter_cons_f (fun m => !(m.1 == r && m.2 == pid)) m tl hq,
          countP_cons_t (fun m => m.1 == r && m.2 == pid) m tl hP,
          countP_cons_t (fun m => m.1 == r) m tl hm1]
        omega
      | false =>
        have hq : (!(m.1 == r && m.2 == pid)) = true := by rw [hP]; rfl
        rw [filter_cons_t (fun m => !(m.1 == r && m.2 == pid)) m tl hq,
          countP_cons_f (fun m => m.1 == r && m.2 == pid) m tl hP]
        cases hm1 : (m.1 == r) with
        | true =>
          rw [countP_cons_t (fun m => m.1 == r) m _ hm1,
            countP_cons_t (fun m => m.1 == r) m tl hm1]
          omega
        | false =>
          rw [countP_cons_f (fun m => m.1 == r) m _ hm1,
            countP_cons_f (fun m => m.1 == r) m tl hm1]
          omega
    · simp only [if_neg hrr, Nat.add_zero] at ih ⊢
      cases hP : (m.1 == rid && m.2 == pid) with
      | true =>
        have hm1 : m.1 = rid := by
          have h := ((Bool.and_eq_true _ _).mp hP).1
          simpa using h
        have hmr : (m.1 == r) = false := by
          rw [hm1]
          exact beq_false_of_ne (fun hh => hrr hh.symm)
        have hq : (!(m.1 == rid && m.2 == pid)) = false := by rw [hP]; rfl
        rw [filter_cons_f (fun m => !(m.1 == rid && m.2 == pid)) m tl hq,
          countP_cons_f (fun m => m.1 == r) m tl hmr]
        exact ih
      | false =>
        have hq : (!(m.1 == rid && m.2 == pid)) = true := by rw [hP]; rfl
        rw [filter_cons_t (fun m => !(m.1 == rid && m.2 == pid)) m tl hq]
        cases hm1 : (m.1 == r) with
        | true =>
          rw [countP_cons_t (fun m => m.1 == r) m _ hm1,
            countP_cons_t (fun m => m.1 == r) m tl hm1]
          omega
        | false =>
          rw [countP_cons_f (fun m => m.1 == r) m _ hm1,
            countP_cons_f (fun m => m.1 == r) m tl hm1]
          omega

theorem roomsWF_init : roomsWF initRooms := by
  refine ⟨?_, ?_, ?_, ?_⟩ <;> simp [initRooms, membershipCount]

theorem roomsWF_apply {st : RoomsState} (hwf : roomsWF st) (op : RoomOp) :
    roomsWF (applyRoomOp st op) := by
  obtain ⟨hrid, hmid, huniq, hcnt⟩ := hwf
  cases op with
  | create g h n c mx =>
    refine ⟨?_, ?_, ?_, ?_⟩
    · intro r hr
      rcases List.mem_cons.mp hr with rfl | hr
      · exact Nat.lt_succ_self _
      · exact Nat.lt_succ_of_lt (hrid r hr)
    · intro m hm
      rcases List.mem_cons.mp hm with rfl | hm
      · exact Nat.lt_succ_self _
      · exact Nat.lt_succ_of_lt (hmid m hm)
    · intro a b
      show ((st.nextRoomId, h) :: st.memberships).countP
          (fun m => m.1 == a && m.2 == b) ≤ 1
      cases hpp : ((st.nextRoomId : Nat) == a && (h : Nat) == b) with
      | true =>
        have ha : st.nextRoomId = a := by
          have := ((Bool.and_eq_true _ _).mp hpp).1
          simpa using this
        rw [countP_cons_t (fun m => m.1 == a && m.2 == b) (st.nextRoomId, h)
          st.memberships hpp]
        have hz : st.memberships.countP (fun m => m.1 == a && m.2 == b) = 0 := by
          rw [List.countP_eq_zero]
          intro m hm
          have hb := hmid m hm
          have hf : (m.1 == a) = false := by
            apply beq_false_of_ne
            omega
          simp [hf]
        omega
      | false =>
        rw [countP_cons_f (fun m => m.1 == a && m.2 == b) (st.nextRoomId, h)
          st.memberships hpp]
        exact huniq a b
    · intro r hr
      rcases List.mem_cons.mp hr with rfl | hr
      · rw [membershipCount_eq_countP]
        change (1 : Nat) = ((st.nextRoomId, h) :: st.memberships).countP
          (fun m => m.1 == st.nextRoomId)
        rw [countP_cons_t (fun m => m.1 == st.nextRoomId) (st.nextRoomId, h)
          st.memberships (by simp)]
        have hz : st.memberships.countP (fun m => m.1 == st.nextRoomId) = 0 := by
          rw [List.countP_eq_zero]
          intro m hm
          have hb := hmid m hm
          simp only [Bool.not_eq_true]
          apply beq_false_of_ne
          omega
        omega
      · rw [membershipCount_eq_countP]
        change r.currentPlayers
          = ((st.nextRoomId, h) :: st.memberships).countP (fun m => m.1 == r.id)
        rw [countP_cons_f (fun m => m.1 == r.id) (st.nextRoomId, h) st.memberships (by
          apply beq_false_of_ne
          have := hrid r hr
          omega)]
        rw [hcnt r hr, membershipCount_eq_countP]
  | join rid pid =>
    show roomsWF (dbJoinRoom st rid pid).1
    unfold dbJoinRoom
    cases hf : findRoom st rid with
    | none =>
      simp only [hf, Option.isNone_none, if_true]
      exact ⟨hrid, hmid, huniq, hcnt⟩
    | some r0 =>
      cases hm : hasMembership st rid pid with
      | true =>
        simp only [hf, hm, Option.isNone_some, Bool.false_eq_true, if_false, if_true]
        exact ⟨hrid, hmid, huniq, hcnt⟩
      | false =>
        obtain ⟨hr0, hr0id⟩ := findRoom_some hf
        have hridlt : rid < st.nextRoomId := hr0id ▸ hrid r0 hr0
        simp only [hf, hm, Option.isNone_some, Bool.false_eq_true, if_false]
        refine ⟨?_, ?_, ?_, ?_⟩
        · intro r' hr'
          obtain ⟨r, hr, he⟩ := mem_mapRoom hr'
          have hid : r'.id = r.id := by
            rw [he]; split <;> rfl
          rw [mapRoom_nextRoomId, hid]
          exact hrid r hr
        · intro m hm'
          rcases List.mem_cons.mp hm' with rfl | hm'
          · exact hridlt
          · exact hmid m hm'
        · intro a b
          show ((rid, pid) :: st.memberships).countP (fun m => m.1 == a && m.2 == b) ≤ 1
          cases hpp : ((rid : Nat) == a && (pid : Nat) == b) with
          | true =>
            have ha : rid = a := by
              have := ((Bool.and_eq_true _ _).mp hpp).1
              simpa using this
            have hb : pid = b := by
              have := ((Bool.and_eq_true _ _).mp hpp).2
              simpa using this
            subst ha hb
            rw [countP_cons_t (fun m => m.1 == rid && m.2 == pid) (rid, pid)
              st.memberships hpp]
            rw [hasMembership_false_countP hm]
          | false =>
            rw [countP_cons_f (fun m => m.1 == a && m.2 == b) (rid, pid)
              st.memberships hpp]
            exact huniq a b
        · intro r' hr'
          obtain ⟨r, hr, he⟩ := mem_mapRoom hr'
          rw [membershipCount_eq_countP]
          by_cases hid : r.id = rid
          · rw [if_pos hid] at he
            have h1 : r'.currentPlayers = r.currentPlayers + 1 := by rw [he]
            have h2 : r'.id = rid := by rw [he]; exact hid
            rw [h1, h2]
            change r.currentPlayers + 1
              = ((rid, pid) :: st.memberships).countP (fun m => m.1 == rid)
            rw [countP_cons_t (fun m => m.1 == rid) (rid, pid) st.memberships (by simp)]
            rw [hcnt r hr, membershipCount_eq_countP, hid]
          · rw [if_neg hid] at he
            rw [he]
            change r.currentPlayers
              = ((rid, pid) :: st.memberships).countP (fun m => m.1 == r.id)
            rw [countP_cons_f (fun m => m.1 == r.id) (rid, pid) st.memberships
              (beq_false_of_ne (fun hh => hid hh.symm))]
            rw [hcnt r hr, membershipCount_eq_countP]
  | leave rid pid =>
    show roomsWF (dbLeaveRoom st rid pid)
    unfold dbLeaveRoom
    cases hm : hasMembership st rid pid with
    | false =>
      simp only [hm, Bool.false_eq_true, if_false]
      exact ⟨hrid, hmid, huniq, hcnt⟩
    | true =>
      have hpair : st.memberships.countP (fun m => m.1 == rid && m.2 == pid) = 1 :=
        le_antisymm (huniq rid pid) (hasMembership_true_countP hm)
      simp only [hm, if_true]
      refine ⟨?_, ?_, ?_, ?_⟩
      · intro r' hr'
        obtain ⟨r, hr, he⟩ := mem_mapRoom hr'
        have hid : r'.id = r.id := by rw [he]; split <;> rfl
        rw [mapRoom_nextRoomId, hid]
        exact hrid r hr
      · intro m hm'
        have hm'' : m ∈ st.memberships := List.mem_of_mem_filter hm'
        exact hmid m hm''
      · intro a b
        calc (st.memberships.filter fun m => !(m.1 == rid && m.2 == pid)).countP
              (fun m => m.1 == a && m.2 == b)
            ≤ st.memberships.countP (fun m => m.1 == a && m.2 == b) :=
              (List.filter_sublist _).countP_le _
          _ ≤ 1 := huniq a b
      · intro r' hr'
        obtain ⟨r, hr, he⟩ := mem_mapRoom hr'
        rw [membershipCount_eq_countP]
        have hkey := countP_filter_remove st.memberships rid pid r.id
        by_cases hid : r.id = rid
        · rw [if_pos hid] at he
          have h1 : r'.currentPlayers = r.currentPlayers - 1 := by rw [he]
          have h2 : r'.id = r.id := by rw [he]
          rw [h1, h2]
          change r.currentPlayers - 1
            = (st.memberships.filter fun m => !(m.1 == rid && m.2 == pid)).countP
                (fun m => m.1 == r.id)
          rw [if_pos hid, hpair] at hkey
          have hc := hcnt r hr
          rw [membershipCount_eq_countP] at hc
          omega
        · rw [if_neg hid] at he
          rw [he]
          change r.currentPlayers
            = (st.memberships.filter fun m => !(m.1 == rid && m.2 == pid)).countP
                (fun m => m.1 == r.id)
          rw [if_neg hid] at hkey
          have hc := hcnt r hr
          rw [membershipCount_eq_countP] at hc
          omega
  | setStatus rid s p =>
    show roomsWF (dbUpdateRoomStatus st rid s p)
    unfold dbUpdateRoomStatus
    refine ⟨?_, ?_, ?_, ?_⟩
    · intro r' hr'
      obtain ⟨r, hr, he⟩ := mem_mapRoom hr'
      have hid : r'.id = r.id := by
        rw [he]
        split
        · split <;> rfl
        · rfl
      rw [mapRoom_nextRoomId, hid]
      exact hrid r hr
    · exact hmid
    · exact huniq
    · intro r' hr'
      obtain ⟨r, hr, he⟩ := mem_mapRoom hr'
      have hid : r'.id = r.id := by
        rw [he]
        split
        · split <;> rfl
        · rfl
      have hcp : r'.currentPlayers = r.currentPlayers := by
        rw [he]
        split
        · split <;> rfl
        · rfl
      rw [membershipCount_eq_countP, hid, hcp, hcnt r hr, membershipCount_eq_countP]
      rfl

theorem roomsWF_run (ops : List RoomOp) : roomsWF (runRoomOps ops) := by
  suffices h : ∀ st, roomsWF st → roomsWF (ops.foldl applyRoomOp st) from
    h initRooms roomsWF_init
  induction ops with
  | nil => intro st h; exact h
  | cons op tl ih => intro st h; exact ih (applyRoomOp st op) (roomsWF_apply h op)

/-- C1: after every sequence of room-store mutations (create_room,
join_room, leave_room, update_room_status), every room's stored
current_players equals the number of room-membership rows carrying its
id.  The membership bookkeeping of the missing schema.sql is modelled from
the spec (see dbCreateRoom, dbJoinRoom, dbLeaveRoom). -/
theorem C1_current_players_matches_memberships (ops : List RoomOp) :
    ∀ r ∈ (runRoomOps ops).rooms,
      r.currentPlayers = membershipCount (runRoomOps ops) r.id :=
  (roomsWF_run ops).2.2.2

/-- C1 witness: create room 1 with host 7, then join player 8; the room's
stored counter is 2 and equals its membership count. -/
theorem C1_witness :
    c1DemoRoom ∈ (runRoomOps c1DemoOps).rooms ∧
    c1DemoRoom.currentPlayers = membershipCount (runRoomOps c1DemoOps) c1DemoRoom.id := by
  have hmem : c1DemoRoom ∈ (runRoomOps c1DemoOps).rooms := by decide
  exact ⟨hmem, C1_current_players_matches_memberships c1DemoOps c1DemoRoom hmem⟩

/-! ## C2 and C7 helper lemmas -/

theorem mapGame_reviews (st : CatalogState) (gid : Nat) (f : GameRow → GameRow) :
    (mapGame st gid f).reviews = st.reviews := rfl

theorem mapGame_downloads (st : CatalogState) (gid : Nat) (f : GameRow → GameRow) :
    (mapGame st gid f).downloads = st.downloads := rfl

theorem mapGame_nextGameId (st : CatalogState) (gid : Nat) (f : GameRow → GameRow) :
    (mapGame st gid f).nextGameId = st.nextGameId := rfl

theorem mem_mapGame {st : CatalogState} {gid : Nat} {f : GameRow → GameRow} {g' : GameRow}
    (h : g' ∈ (mapGame st gid f).games) :
    ∃ g, g ∈ st.games ∧ g' = if g.id = gid then f g else g := by
  simp only [mapGame, List.mem_map] at h
  obtain ⟨g, hg, he⟩ := h
  exact ⟨g, hg, he.symm⟩

theorem findGame_some {st : CatalogState} {gid : Nat} {g : GameRow}
    (h : findGame st gid = some g) : g ∈ st.games ∧ g.id = gid := by
  refine ⟨List.mem_of_find?_eq_some h, ?_⟩
  have h1 := List.find?_some h
  simpa using h1

theorem ratingMean_congr {st1 st2 : CatalogState} {x : Nat}
    (h : reviewsFor st1 x = reviewsFor st2 x) : ratingMean st1 x = ratingMean st2 x := by
  unfold ratingMean
  rw [h]

theorem filter_map_upd_ne (tl : List ReviewRow) (gid pid rating : Nat) (comment : String)
    (x : Nat) (hx : x ≠ gid) :
    (tl.map (fun r =>
      if r.gameId == gid && r.playerId == pid then
        { r with rating := rating, comment := comment } else r)).filter
        (fun r => r.gameId == x)
    = tl.filter (fun r => r.gameId == x) := by
  induction tl with
  | nil => rfl
  | cons r tl ih =>
    by_cases hp : r.gameId = gid ∧ r.playerId = pid
    · have hgx : ¬(gid = x) := fun hh => hx hh.symm
      obtain ⟨h1, h2⟩ := hp
      simp [List.filter_cons, h1, h2, hgx]
      simpa using ih
    · simp [List.filter_cons, hp]
      have ih2 := ih
      simp at ih2
      rw [ih2]

theorem upsert_gameId_lt {rows : List ReviewRow} {gid pid rating n : Nat} {comment : String}
    (hb : ∀ rv ∈ rows, rv.gameId < n) (hg : gid < n) :
    ∀ rv' ∈ upsertReviewRows rows gid pid rating comment, rv'.gameId < n := by
  intro rv' h
  unfold upsertReviewRows at h
  by_cases hex : rows.any (fun r => r.gameId == gid && r.playerId == pid) = true
  · rw [if_pos hex] at h
    rcases List.mem_map.mp h with ⟨rv, hrv, rfl⟩
    have hpr : (if (rv.gameId == gid && rv.playerId == pid) = true then
        ({ rv with rating := rating, comment := comment } : ReviewRow) else rv).gameId
        = rv.gameId := by
      split <;> rfl
    rw [hpr]
    exact hb rv hrv
  · rw [if_neg hex] at h
    rcases List.mem_cons.mp h with rfl | h
    · exact hg
    · exact hb rv' h

/-- Upserting a review for gid does not change the review rows of any
other game. -/
theorem upsert_filter_ne (rows : List ReviewRow) (gid pid rating : Nat) (comment : String)
    (x : Nat) (hx : x ≠ gid) :
    (upsertReviewRows rows gid pid rating comment).filter (fun r => r.gameId == x)
      = rows.filter (fun r => r.gameId == x) := by
  unfold upsertReviewRows
  cases hex : rows.any (fun r => r.gameId == gid && r.playerId == pid) with
  | true =>
    simp only [hex, if_true]
    exact filter_map_upd_ne rows gid pid rating comment x hx
  | false =>
    simp only [hex, Bool.false_eq_true, if_false]
    exact filter_cons_f (fun r => r.gameId == x)
      (⟨gid, pid, rating, comment⟩ : ReviewRow) rows
      (beq_false_of_ne (fun hh => hx hh.symm))

theorem catalogWF_init : catalogWF initCatalog := by
  refine ⟨?_, ?_, ?_, ?_, ?_⟩ <;> simp [initCatalog]

theorem catalogWF_apply {st : CatalogState} (hwf : catalogWF st) (op : CatalogOp) :
    catalogWF (applyCatalogOp st op) := by
  obtain ⟨hgid, hrvid, hdid, hagg, hdcnt⟩ := hwf
  cases op with
  | createGame n d dev v mi ma t =>
    show catalogWF (dbCreateGame st n d dev v mi ma t).1
    unfold dbCreateGame
    cases hc : st.games.any (fun g => g.name == n) with
    | true =>
      simp only [hc, if_true]
      exact ⟨hgid, hrvid, hdid, hagg, hdcnt⟩
    | false =>
      simp only [hc, Bool.false_eq_true, if_false]
      have hemp : st.reviews.filter (fun r => r.gameId == st.nextGameId) = [] := by
        rw [List.filter_eq_nil_iff]
        intro rv hrv
        have hb := hrvid rv hrv
        simp only [Bool.not_eq_true]
        apply beq_false_of_ne
        omega
      have hempd : st.downloads.filter (fun dl => dl.gameId == st.nextGameId) = [] := by
        rw [List.filter_eq_nil_iff]
        intro dl hdl
        have hb := hdid dl hdl
        simp only [Bool.not_eq_true]
        apply beq_false_of_ne
        omega
      refine ⟨?_, ?_, ?_, ?_, ?_⟩
      · intro g hg
        rcases List.mem_cons.mp hg with rfl | hg
        · exact Nat.lt_succ_self _
        · exact Nat.lt_succ_of_lt (hgid g hg)
      · intro rv hrv
        exact Nat.lt_succ_of_lt (hrvid rv hrv)
      · intro dl hdl
        exact Nat.lt_succ_of_lt (hdid dl hdl)
      · intro g hg
        rcases List.mem_cons.mp hg with rfl | hg
        · refine ⟨?_, ?_⟩
          · simp [reviewsFor, hemp]
          · simp [ratingMean, reviewsFor, hemp]
        · exact hagg g hg
      · intro g hg
        rcases List.mem_cons.mp hg with rfl | hg
        · simp [downloadsFor, hempd]
        · exact hdcnt g hg
  | submitReview gid pid rating comment =>
    show catalogWF (dbAddReview st gid pid rating comment).1
    unfold dbAddReview refreshRatingAggregate
    cases hfg : findGame st gid with
    | none =>
      simp only [hfg, Option.isNone_none, if_true]
      exact ⟨hgid, hrvid, hdid, hagg, hdcnt⟩
    | some g0 =>
      obtain ⟨hg0, hg0id⟩ := findGame_some hfg
      have hgidlt : gid < st.nextGameId := hg0id ▸ hgid g0 hg0
      simp only [hfg, Option.isNone_some, Bool.false_eq_true, if_false]
      refine ⟨?_, ?_, ?_, ?_, ?_⟩
      · intro g' hg'
        obtain ⟨g, hg, he⟩ := mem_mapGame hg'
        have hid : g'.id = g.id := by
          rw [he]; split <;> rfl
        rw [hid]
        exact hgid g hg
      · intro rv' hrv'
        exact upsert_gameId_lt hrvid hgidlt rv' hrv'
      · intro dl hdl
        exact hdid dl hdl
      · intro g' hg'
        obtain ⟨g, hg, he⟩ := mem_mapGame hg'
        by_cases hid : g.id = gid
        · rw [if_pos hid] at he
          subst he
          refine ⟨?_, ?_⟩
          · show (reviewsFor (upsertState st gid pid rating comment) gid).length
              = (reviewsFor (upsertState st gid pid rating comment) g.id).length
            rw [hid]
          · show ratingMean (upsertState st gid pid rating comment) gid
              = ratingMean (upsertState st gid pid rating comment) g.id
            rw [hid]
        · rw [if_neg hid] at he
          rw [he]
          have hflt : reviewsFor (upsertState st gid pid rating comment) g.id
              = reviewsFor st g.id :=
            upsert_filter_ne st.reviews gid pid rating comment g.id hid
          refine ⟨?_, ?_⟩
          · rw [(hagg g hg).1]
            show (reviewsFor st g.id).length
              = (reviewsFor (upsertState st gid pid rating comment) g.id).length
            rw [hflt]
          · rw [(hagg g hg).2]
            exact (ratingMean_congr hflt).symm
      · intro g' hg'
        obtain ⟨g, hg, he⟩ := mem_mapGame hg'
        have hid : g'.id = g.id := by
          rw [he]; split <;> rfl
        have hdc : g'.downloadCount = g.downloadCount := by
          rw [he]; split <;> rfl
        rw [hdc, hid]
        exact hdcnt g hg
  | download u gid v fod sok =>
    show catalogWF (handleDownloadRequest st u gid v fod sok).1
    unfold handleDownloadRequest
    cases u with
    | none => exact ⟨hgid, hrvid, hdid, hagg, hdcnt⟩
    | some pid =>
      cases hfg : findGame st gid with
      | none =>
        simp only [hfg]
        exact ⟨hgid, hrvid, hdid, hagg, hdcnt⟩
      | some g0 =>
        obtain ⟨hg0, hg0id⟩ := findGame_some hfg
        have hgidlt : gid < st.nextGameId := hg0id ▸ hgid g0 hg0
        simp only [hfg]
        by_cases hst : g0.status ≠ GameStatus.active
        · rw [if_pos hst]
          exact ⟨hgid, hrvid, hdid, hagg, hdcnt⟩
        · rw [if_neg hst]
          cases hvi : resolveVersion st gid v with
          | none =>
            simp only [hvi]
            exact ⟨hgid, hrvid, hdid, hagg, hdcnt⟩
          | some vi =>
            simp only [hvi]
            cases fod with
            | false => exact ⟨hgid, hrvid, hdid, hagg, hdcnt⟩
            | true =>
              cases sok with
              | false => exact ⟨hgid, hrvid, hdid, hagg, hdcnt⟩
              | true =>
                show catalogWF (dbRecordDownload st gid pid vi.version)
                unfold dbRecordDownload dbIncrementDownloadCount
                refine ⟨?_, ?_, ?_, ?_, ?_⟩
                · intro g' hg'
                  obtain ⟨g, hg, he⟩ := mem_mapGame hg'
                  have hid : g'.id = g.id := by
                    rw [he]; split <;> rfl
                  rw [hid]
                  exact hgid g hg
                · intro rv hrv
                  exact hrvid rv hrv
                · intro dl hdl
                  have hdl' : dl ∈ (⟨gid, pid, vi.version⟩ : DownloadRow)
                      :: st.downloads := hdl
                  rcases List.mem_cons.mp hdl' with rfl | hdl''
                  · exact hgidlt
                  · exact hdid dl hdl''
                · intro g' hg'
                  obtain ⟨g, hg, he⟩ := mem_mapGame hg'
                  have hid : g'.id = g.id := by
                    rw [he]; split <;> rfl
                  have hrc : g'.ratingCount = g.ratingCount := by
                    rw [he]; split <;> rfl
                  have har : g'.averageRating = g.averageRating := by
                    rw [he]; split <;> rfl
                  refine ⟨?_, ?_⟩
                  · rw [hrc, hid]
                    exact (hagg g hg).1
                  · rw [har, hid]
                    exact (hagg g hg).2
                · intro g' hg'
                  obtain ⟨g, hg, he⟩ := mem_mapGame hg'
                  by_cases hid : g.id = gid
                  · rw [if_pos hid] at he
                    have h1 : g'.downloadCount = g.downloadCount + 1 := by rw [he]
                    have h2 : g'.id = g.id := by rw [he]
                    rw [h1, h2, hdcnt g hg, hid]
                    show (downloadsFor st gid).length + 1
                      = (((⟨gid, pid, vi.version⟩ : DownloadRow) :: st.downloads).filter
                          (fun dl => dl.gameId == gid)).length
                    rw [filter_cons_t (fun dl => dl.gameId == gid)
                      (⟨gid, pid, vi.version⟩ : DownloadRow) st.downloads (by simp)]
                    rw [List.length_cons]
                    rfl
                  · rw [if_neg hid] at he
                    rw [he, hdcnt g hg]
                    show (downloadsFor st g.id).length
                      = (((⟨gid, pid, vi.version⟩ : DownloadRow) :: st.downloads).filter
                          (fun dl => dl.gameId == g.id)).length
                    rw [filter_cons_f (fun dl => dl.gameId == g.id)
                      (⟨gid, pid, vi.version⟩ : DownloadRow) st.downloads
                      (beq_false_of_ne (fun hh => hid hh.symm))]
                    rfl
  | addVersion g v cl fp fs ck =>
    show catalogWF (dbAddGameVersion st g v cl fp fs ck).1
    unfold dbAddGameVersion
    by_cases hdup : (findVersion st g v).isSome = true
    · rw [if_pos hdup]
      exact ⟨hgid, hrvid, hdid, hagg, hdcnt⟩
    · rw [if_neg hdup]
      exact ⟨hgid, hrvid, hdid, hagg, hdcnt⟩
  | setGameStatus g s =>
    show catalogWF (dbUpdateGameStatus st g s)
    unfold dbUpdateGameStatus
    refine ⟨?_, ?_, ?_, ?_, ?_⟩
    · intro g' hg'
      obtain ⟨gg, hgg, he⟩ := mem_mapGame hg'
      have hid : g'.id = gg.id := by
        rw [he]; split <;> rfl
      rw [hid]
      exact hgid gg hgg
    · exact hrvid
    · exact hdid
    · intro g' hg'
      obtain ⟨gg, hgg, he⟩ := mem_mapGame hg'
      have hid : g'.id = gg.id := by
        rw [he]; split <;> rfl
      have hrc : g'.ratingCount = gg.ratingCount := by
        rw [he]; split <;> rfl
      have har : g'.averageRating = gg.averageRating := by
        rw [he]; split <;> rfl
      refine ⟨?_, ?_⟩
      · rw [hrc, hid]
        exact (hagg gg hgg).1
      · rw [har, hid]
        exact (hagg gg hgg).2
    · intro g' hg'
      obtain ⟨gg, hgg, he⟩ := mem_mapGame hg'
      have hid : g'.id = gg.id := by
        rw [he]; split <;> rfl
      have hdc : g'.downloadCount = gg.downloadCount := by
        rw [he]; split <;> rfl
      rw [hdc, hid]
      exact hdcnt gg hgg

theorem catalogWF_run (ops : List CatalogOp) : catalogWF (runCatalogOps ops) := by
  suffices h : ∀ st, catalogWF st → catalogWF (ops.foldl applyCatalogOp st) from
    h initCatalog catalogWF_init
  induction ops with
  | nil => intro st h; exact h
  | cons op tl ih => intro st h; exact ih (applyCatalogOp st op) (catalogWF_apply h op)

/-- C2: after every sequence of catalog mutations (and in particular after
every review upsert, which overwrites on the (game_id, player_id) key),
every game's rating_count equals its number of review rows, its
average_rating equals the mean of those rows, and the projected rating is
that mean rounded to one decimal.  The aggregate refresh of the missing
schema.sql is modelled from the spec (see refreshRatingAggregate). -/
theorem C2_review_aggregates (ops : List CatalogOp) :
    ∀ g ∈ (runCatalogOps ops).games,
      g.ratingCount = (reviewsFor (runCatalogOps ops) g.id).length ∧
      g.averageRating = ratingMean (runCatalogOps ops) g.id ∧
      projectedRating g = roundTo1 (ratingMean (runCatalogOps ops) g.id) := by
  intro g hg
  obtain ⟨h1, h2⟩ := (catalogWF_run ops).2.2.2.1 g hg
  refine ⟨h1, h2, ?_⟩
  unfold projectedRating
  rw [h2]

/-- C2 witness: one game reviewed twice by the same player; the overwrite
leaves one row, rating_count 1 and average_rating 5. -/
theorem C2_witness :
    c2DemoGame ∈ (runCatalogOps c2DemoOps).games ∧
    (c2DemoGame.ratingCount = (reviewsFor (runCatalogOps c2DemoOps) c2DemoGame.id).length ∧
     c2DemoGame.averageRating = ratingMean (runCatalogOps c2DemoOps) c2DemoGame.id ∧
     projectedRating c2DemoGame
       = roundTo1 (ratingMean (runCatalogOps c2DemoOps) c2DemoGame.id)) := by
  have hmem : c2DemoGame ∈ (runCatalogOps c2DemoOps).games := by decide
  exact ⟨hmem, C2_review_aggregates c2DemoOps c2DemoGame hmem⟩

/-! ## C7: download records and the download counter -/

theorem handleDownload_not_completed (st : CatalogState) (u : Option Nat) (gid : Nat)
    (v : Option String) (fod sok : Bool)
    (h : ((handleDownloadRequest st u gid v fod sok).2).isCompleted = false) :
    (handleDownloadRequest st u gid v fod sok).1 = st := by
  unfold handleDownloadRequest at h ⊢
  cases u with
  | none => rfl
  | some pid =>
    cases hfg : findGame st gid with
    | none => simp [hfg]
    | some g0 =>
      simp only [hfg] at h ⊢
      by_cases hst : g0.status ≠ GameStatus.active
      · rw [if_pos hst]
      · rw [if_neg hst] at h ⊢
        cases hvi : resolveVersion st gid v with
        | none => simp [hvi]
        | some vi =>
          simp only [hvi] at h ⊢
          cases fod with
          | false => rfl
          | true =>
            cases sok with
            | false => rfl
            | true => exact Bool.noConfusion h

theorem handleDownload_completed (st : CatalogState) (u : Option Nat) (gid : Nat)
    (v : Option String) (fod sok : Bool)
    (h : ((handleDownloadRequest st u gid v fod sok).2).isCompleted = true) :
    ∃ pid vi, u = some pid ∧ resolveVersion st gid v = some vi ∧
      (handleDownloadRequest st u gid v fod sok).1
        = dbRecordDownload st gid pid vi.version := by
  unfold handleDownloadRequest at h ⊢
  cases u with
  | none => exact Bool.noConfusion h
  | some pid =>
    cases hfg : findGame st gid with
    | none =>
      simp only [hfg] at h
      exact Bool.noConfusion h
    | some g0 =>
      simp only [hfg] at h ⊢
      by_cases hst : g0.status ≠ GameStatus.active
      · rw [if_pos hst] at h
        exact Bool.noConfusion h
      · rw [if_neg hst] at h ⊢
        cases hvi : resolveVersion st gid v with
        | none =>
          simp only [hvi] at h
          exact Bool.noConfusion h
        | some vi =>
          simp only [hvi] at h ⊢
          cases fod with
          | false => exact Bool.noConfusion h
          | true =>
            cases sok with
            | false => exact Bool.noConfusion h
            | true => exact ⟨pid, vi, rfl, rfl, rfl⟩

/-- C7: the download handler leaves the catalog untouched unless the chunk
streaming completes, in which case it applies record_download exactly once
(one download row, one counter bump); consequently, after any sequence of
catalog operations every game's download_count equals its number of
download records. -/
theorem C7_download_count_matches_records :
    (∀ st u gid v fod sok,
      ((handleDownloadRequest st u gid v fod sok).2).isCompleted = false →
        (handleDownloadRequest st u gid v fod sok).1 = st) ∧
    (∀ st u gid v fod sok,
      ((handleDownloadRequest st u gid v fod sok).2).isCompleted = true →
        ∃ pid vi, u = some pid ∧ resolveVersion st gid v = some vi ∧
          (handleDownloadRequest st u gid v fod sok).1
            = dbRecordDownload st gid pid vi.version) ∧
    (∀ ops, ∀ g ∈ (runCatalogOps ops).games,
        g.downloadCount = (downloadsFor (runCatalogOps ops) g.id).length) :=
  ⟨handleDownload_not_completed, handleDownload_completed,
   fun ops => (catalogWF_run ops).2.2.2.2⟩

/-- C7 witness: on the demo catalog a failed stream leaves the state
unchanged, a successful one applies record_download, and the demo game's
counter (2) equals its number of download records. -/
theorem C7_witness :
    ((handleDownloadRequest (runCatalogOps c7DemoOps) (some 9) 1 none true false).1
      = runCatalogOps c7DemoOps) ∧
    (∃ pid vi, (some 9 : Option Nat) = some pid ∧
      resolveVersion (runCatalogOps c7DemoOps) 1 none = some vi ∧
      (handleDownloadRequest (runCatalogOps c7DemoOps) (some 9) 1 none true true).1
        = dbRecordDownload (runCatalogOps c7DemoOps) 1 pid vi.version) ∧
    c7DemoGame.downloadCount
      = (downloadsFor (runCatalogOps c7DemoOps) c7DemoGame.id).length := by
  refine ⟨C7_download_count_matches_records.1 _ _ _ _ _ _ (by decide),
    C7_download_count_matches_records.2.1 _ _ _ _ _ _ (by decide),
    C7_download_count_matches_records.2.2 c7DemoOps c7DemoGame (by decide)⟩

/-! ## C3: playing rooms, ports and the supervisor monitor -/

theorem playing_port_mapRoom {st : RoomsState} {rid : Nat} {f : RoomRow → RoomRow}
    (hfs : ∀ r, (f r).status = r.status) (hfp : ∀ r, (f r).gamePort = r.gamePort)
    (hinv : ∀ r ∈ st.rooms, r.status = RoomStatus.playing → r.gamePort ≠ none) :
    ∀ r ∈ (mapRoom st rid f).rooms, r.status = RoomStatus.playing → r.gamePort ≠ none := by
  intro r' hr' hst
  obtain ⟨r, hr, he⟩ := mem_mapRoom hr'
  by_cases hid : r.id = rid
  · rw [if_pos hid] at he
    rw [he] at hst ⊢
    rw [hfs r] at hst
    rw [hfp r]
    exact hinv r hr hst
  · rw [if_neg hid] at he
    rw [he] at hst ⊢
    exact hinv r hr hst

theorem playing_port_close {st : RoomsState} {rid : Nat}
    (hinv : ∀ r ∈ st.rooms, r.status = RoomStatus.playing → r.gamePort ≠ none) :
    ∀ r ∈ (dbUpdateRoomStatus st rid RoomStatus.closed none).rooms,
      r.status = RoomStatus.playing → r.gamePort ≠ none := by
  unfold dbUpdateRoomStatus
  intro r' hr' hst
  obtain ⟨r, hr, he⟩ := mem_mapRoom hr'
  by_cases hid : r.id = rid
  · rw [if_pos hid] at he
    rw [he] at hst
    exact absurd hst (by simp [portTruthy])
  · rw [if_neg hid] at he
    rw [he] at hst ⊢
    exact hinv r hr hst

theorem playing_port_start {st : RoomsState} {rid port : Nat} (hp : port ≠ 0)
    (hinv : ∀ r ∈ st.rooms, r.status = RoomStatus.playing → r.gamePort ≠ none) :
    ∀ r ∈ (dbUpdateRoomStatus st rid RoomStatus.playing (some port)).rooms,
      r.status = RoomStatus.playing → r.gamePort ≠ none := by
  unfold dbUpdateRoomStatus
  intro r' hr' hst
  obtain ⟨r, hr, he⟩ := mem_mapRoom hr'
  have hps : portTruthy (some port) = true := by
    simpa [portTruthy] using hp
  by_cases hid : r.id = rid
  · rw [if_pos hid] at he
    rw [if_pos hps] at he
    rw [he]
    simp
  · rw [if_neg hid] at he
    rw [he] at hst ⊢
    exact hinv r hr hst

theorem lobbyWF_apply {st : LobbyState} (h : lobbyWF st) (ev : LobbyEvent) :
    lobbyWF (applyLobbyEvent st ev) := by
  obtain ⟨hport, hinv⟩ := h
  cases ev with
  | createRoom g hid n c m =>
    refine ⟨hport, ?_⟩
    intro r hr hst
    rcases List.mem_cons.mp hr with rfl | hr
    · exact absurd hst (by simp)
    · exact hinv r hr hst
  | joinRoom u rid =>
    unfold applyLobbyEvent
    cases u with
    | none => exact ⟨hport, hinv⟩
    | some pid =>
      cases hf : findRoom st.roomsDb rid with
      | none => simp only [hf]; exact ⟨hport, hinv⟩
      | some room =>
        simp only [hf]
        by_cases h1 : room.status ≠ RoomStatus.waiting
        · rw [if_pos h1]; exact ⟨hport, hinv⟩
        · rw [if_neg h1]
          by_cases h2 : room.maxPlayers ≤ room.currentPlayers
          · rw [if_pos h2]; exact ⟨hport, hinv⟩
          · rw [if_neg h2]
            refine ⟨hport, ?_⟩
            show ∀ r ∈ (dbJoinRoom st.roomsDb rid pid).1.rooms,
              r.status = RoomStatus.playing → r.gamePort ≠ none
            unfold dbJoinRoom
            by_cases h3 : (findRoom st.roomsDb rid).isNone = true
            · rw [if_pos h3]; exact hinv
            · rw [if_neg h3]
              by_cases h4 : hasMembership st.roomsDb rid pid = true
              · rw [if_pos h4]; exact hinv
              · rw [if_neg h4]
                exact playing_port_mapRoom (fun r => rfl) (fun r => rfl) hinv
  | leaveRoom u rid =>
    unfold applyLobbyEvent
    cases u with
    | none => exact ⟨hport, hinv⟩
    | some pid =>
      cases hf : findRoom st.roomsDb rid with
      | none =>
        simp only [hf]
        refine ⟨hport, ?_⟩
        show ∀ r ∈ (dbLeaveRoom st.roomsDb rid pid).rooms,
          r.status = RoomStatus.playing → r.gamePort ≠ none
        unfold dbLeaveRoom
        by_cases h4 : hasMembership st.roomsDb rid pid = true
        · rw [if_pos h4]
          exact playing_port_mapRoom (fun r => rfl) (fun r => rfl) hinv
        · rw [if_neg h4]; exact hinv
      | some room =>
        simp only [hf]
        by_cases h1 : room.hostId = pid
        · rw [if_pos h1]
          exact ⟨hport, playing_port_close hinv⟩
        · rw [if_neg h1]
          refine ⟨hport, ?_⟩
          show ∀ r ∈ (dbLeaveRoom st.roomsDb rid pid).rooms,
            r.status = RoomStatus.playing → r.gamePort ≠ none
          unfold dbLeaveRoom
          by_cases h4 : hasMembership st.roomsDb rid pid = true
          · rw [if_pos h4]
            exact playing_port_mapRoom (fun r => rfl) (fun r => rfl) hinv
          · rw [if_neg h4]; exact hinv
  | startGame u rid gameOk spawnOk =>
    unfold applyLobbyEvent
    cases u with
    | none => exact ⟨hport, hinv⟩
    | some pid =>
      cases hf : findRoom st.roomsDb rid with
      | none => simp only [hf]; exact ⟨hport, hinv⟩
      | some room =>
        simp only [hf]
        by_cases h1 : room.hostId ≠ pid
        · rw [if_pos h1]; exact ⟨hport, hinv⟩
        · rw [if_neg h1]
          by_cases h2 : ¬ gameOk = true
          · rw [if_pos h2]; exact ⟨hport, hinv⟩
          · rw [if_neg h2]
            cases spawnOk with
            | false => exact ⟨Nat.succ_ne_zero _, hinv⟩
            | true =>
              exact ⟨Nat.succ_ne_zero _, playing_port_start hport hinv⟩
  | childExit rid => exact ⟨hport, hinv⟩
  | sweepRoom rid =>
    unfold applyLobbyEvent
    cases hf : findRoom st.roomsDb rid with
    | none => simp only [hf]; exact ⟨hport, hinv⟩
    | some room =>
      simp only [hf]
      by_cases h1 : room.status = RoomStatus.waiting
      · rw [if_pos h1]
        exact ⟨hport, playing_port_close hinv⟩
      · rw [if_neg h1]; exact ⟨hport, hinv⟩

theorem lobbyWF_run (evs : List LobbyEvent) : lobbyWF (runLobbyEvents evs) := by
  suffices h : ∀ st, lobbyWF st → lobbyWF (evs.foldl applyLobbyEvent st) from
    h initLobby ⟨by decide, by intro r hr; cases hr⟩
  induction evs with
  | nil => intro st h; exact h
  | cons ev tl ih => intro st h; exact ih (applyLobbyEvent st ev) (lobbyWF_apply h ev)

/-- C3 counterexample: create room 1, start its game (spawn succeeds, port
9000), then let the child exit: the supervisor entry is gone while the
room is still in state playing — the monitor did not close the room, so a
playing room without a supervisor entry exists. -/
theorem C3_counterexample :
    (findRoom (runLobbyEvents c3DemoEvents).roomsDb 1).map (fun r => r.status)
      = some RoomStatus.playing ∧
    (runLobbyEvents c3DemoEvents).supervisor = [] := by
  exact ⟨by decide, by decide⟩

/-- C3 (amended): a room in state playing always carries a non-null
game_port (set when it entered playing); when the child process of a room
exits, the monitor only removes the supervisor entry — the rooms table,
and in particular a room still in state playing, is left unchanged. -/
theorem C3_playing_rooms_and_child_exit :
    (∀ evs, ∀ r ∈ (runLobbyEvents evs).roomsDb.rooms,
        r.status = RoomStatus.playing → r.gamePort ≠ none) ∧
    (∀ st rid, applyLobbyEvent st (.childExit rid)
        = { st with supervisor := st.supervisor.filter (fun e => e.roomId != rid) }) :=
  ⟨fun evs => (lobbyWF_run evs).2, fun _ _ => rfl⟩

/-- C3 witness: after create and start, room 1 is playing on port 9000 and
its port is non-null. -/
theorem C3_witness :
    c3DemoRoom ∈ (runLobbyEvents c3DemoEvents2).roomsDb.rooms ∧
    c3DemoRoom.gamePort ≠ none := by
  have hm : c3DemoRoom ∈ (runLobbyEvents c3DemoEvents2).roomsDb.rooms := by decide
  exact ⟨hm, C3_playing_rooms_and_child_exit.1 c3DemoEvents2 c3DemoRoom hm (by decide)⟩

/-! ## Developer-server helper lemmas -/

theorem lookupUpload_removeUpload (st : DevServerState) (c : String) :
    lookupUpload (removeUpload st c) c = none := by
  have h : (st.uploads.filter (fun x => !(x.1 == c))).find? (fun x => x.1 == c) = none := by
    rw [List.find?_eq_none]
    intro x hx
    have hm := List.mem_filter.mp hx
    simpa using hm.2
  simp [lookupUpload, removeUpload, h]

theorem lookupUpload_setUpload (st : DevServerState) (c : String) (u : UploadInfo) :
    lookupUpload (setUpload st c u) c = some u := by
  simp [lookupUpload, setUpload]

theorem lookupCurrentLink_set (st : DevServerState) (gid : Nat) (v : String) :
    lookupCurrentLink (setCurrentLink st gid v) gid = some v := by
  simp [lookupCurrentLink, setCurrentLink]

/-! ## C4 -/

/-- C4: evaluation of the update flow at the failing input.  Developer 7
runs UPDATE_GAME on game 1 towards 2.0.0, streams one chunk and completes
with a matching checksum.  The handler replies UPLOAD_SUCCESS, a 2.0.0
version row exists and the current link points at 2.0.0, but
games.current_version still reads 1.0.0: handle_upload_complete never
calls update_game_version (dbUpdateGameVersion here), which would have
produced 2.0.0 as the last conjunct shows. -/
theorem C4_update_leaves_current_version_stale :
    c4Final.2 = DevReply.uploadOk 1 ∧
    (findVersion c4Final.1.catalog 1 "2.0.0").isSome = true ∧
    lookupCurrentLink c4Final.1 1 = some "2.0.0" ∧
    (findGame c4Final.1.catalog 1).map (fun g => g.currentVersion) = some "1.0.0" ∧
    (findGame (dbUpdateGameVersion c4Final.1.catalog 1 "2.0.0") 1).map
        (fun g => g.currentVersion) = some "2.0.0" := by
  refine ⟨by decide, by decide, by decide, by decide, by decide⟩

/-! ## C5 -/

/-- C5 counterexample: client "c" disconnects while an upload is in
flight.  handle_client's finally block only deletes the clients entry: the
in-flight upload survives with its sink still open, and the temporary file
is still there. -/
theorem C5_counterexample :
    lookupUpload (devDisconnect c5State "c") "c" = some c5Upload ∧
    (devDisconnect c5State "c").tempFiles = ["c"] ∧
    (devDisconnect c5State "c").clients = [] ∧
    c5Upload.sinkOpen = true := by
  refine ⟨by decide, by decide, by decide, by decide⟩

/-- C5 (amended): during UPLOAD_COMPLETE a checksum mismatch closes the
sink, deletes the temporary file, clears the in-flight entry and replies
ERROR; an extraction error after the move clears the in-flight entry and
replies ERROR, with the moved package left in place; but a developer
disconnect removes only the connection entry — the in-flight upload and
its temporary file are left untouched. -/
theorem C5_cleanup_behaviour :
    (∀ (hash : List Nat → String) (st : DevServerState) (c : String) (uid : Nat)
        (u : UploadInfo) (eok : Bool),
      lookupUpload st c = some u → hash u.content ≠ u.checksum →
      handleUploadComplete hash st c (some uid) eok
        = (removeUpload (removeTempFile
            (setUpload st c { u with sinkOpen := false }) c) c,
           DevReply.errorReply "Checksum mismatch - file corrupted")) ∧
    (∀ (st : DevServerState) (c : String) (u : UploadInfo) (gid : Nat),
      finalizeUpload st c u gid false
        = (removeUpload { removeTempFile st c with
            packages := (gid, u.version) :: st.packages } c,
           DevReply.errorReply "Upload failed")) ∧
    (∀ (st : DevServerState) (c : String),
      (devDisconnect st c).uploads = st.uploads ∧
      (devDisconnect st c).tempFiles = st.tempFiles) := by
  refine ⟨?_, ?_, ?_⟩
  · intro hash st c uid u eok hu hne
    unfold handleUploadComplete
    simp only [hu]
    rw [if_pos hne]
  · intro st c u gid
    rfl
  · intro st c
    exact ⟨rfl, rfl⟩

/-- C5 witness: the checksum-mismatch arm at a concrete state and a hash
that disagrees, and the disconnect arm at the same state. -/
theorem C5_witness :
    (handleUploadComplete (fun _ => "bad") c5State "c" (some 7) true
      = (removeUpload (removeTempFile
          (setUpload c5State "c" { c5Upload with sinkOpen := false }) "c") "c",
         DevReply.errorReply "Checksum mismatch - file corrupted")) ∧
    ((devDisconnect c5State "c").uploads = c5State.uploads ∧
      (devDisconnect c5State "c").tempFiles = c5State.tempFiles) :=
  ⟨C5_cleanup_behaviour.1 (fun _ => "bad") c5State "c" 7 c5Upload true
      (by decide) (by decide),
   C5_cleanup_behaviour.2.2 c5State "c"⟩

/-! ## C9 -/

/-- C9 counterexample: expected_size is 10 and nothing has been received;
a 16-byte chunk (cumulative 16 > 10) is not answered with an error — it is
acknowledged as a successful chunk carrying received = 16. -/
theorem C9_counterexample :
    DevReply.receivedOf (handleUploadChunk c9State "c" (List.replicate 16 0)).2
        = some 16 ∧
    DevReply.isError (handleUploadChunk c9State "c" (List.replicate 16 0)).2 = false ∧
    c9Upload.receivedBytes + (List.replicate 16 0).length > c9Upload.fileSize := by
  refine ⟨by decide, by decide, by decide⟩

/-- C9 (amended): handle_upload_chunk never compares the cumulative size
against expected_size: any non-empty chunk for an in-flight upload — also
one that pushes the total past expected_size — is appended and
acknowledged with SUCCESS carrying the new received count. -/
theorem C9_oversized_chunk_accepted (st : DevServerState) (c : String) (u : UploadInfo)
    (data : List Nat) (hu : lookupUpload st c = some u) (hne : data ≠ [])
    (hover : u.fileSize < u.receivedBytes + data.length) :
    DevReply.receivedOf (handleUploadChunk st c data).2
        = some (u.receivedBytes + data.length) ∧
    DevReply.isError (handleUploadChunk st c data).2 = false ∧
    lookupUpload (handleUploadChunk st c data).1 c
        = some { u with content := u.content ++ data,
                        receivedBytes := u.receivedBytes + data.length } := by
  unfold handleUploadChunk
  simp only [hu]
  have hde : data.isEmpty = false := by
    cases data with
    | nil => exact absurd rfl hne
    | cons a l => rfl
  rw [if_neg (by simp [hde])]
  refine ⟨rfl, rfl, ?_⟩
  exact lookupUpload_setUpload st c
    { u with content := u.content ++ data, receivedBytes := u.receivedBytes + data.length }

/-- C9 witness, at the demo upload (expected_size 10) and a 16-byte
chunk. -/
theorem C9_witness :
    DevReply.receivedOf (handleUploadChunk c9State "c" (List.replicate 16 0)).2
        = some (c9Upload.receivedBytes + (List.replicate 16 0).length) ∧
    DevReply.isError (handleUploadChunk c9State "c" (List.replicate 16 0)).2 = false ∧
    lookupUpload (handleUploadChunk c9State "c" (List.replicate 16 0)).1 "c"
        = some { c9Upload with
            content := c9Upload.content ++ List.replicate 16 0,
            receivedBytes := c9Upload.receivedBytes + (List.replicate 16 0).length } :=
  C9_oversized_chunk_accepted c9State "c" c9Upload (List.replicate 16 0)
    (by decide) (by decide) (by decide)

/-! ## C10 -/

/-- C10: in the update flow, handle_upload_complete ignores the return
value of add_game_version.  When (game_id, version) already exists the
INSERT fails and no version row is appended, yet the handler still
repoints the current link, clears the in-flight entry and replies
UPLOAD_SUCCESS. -/
theorem C10_duplicate_version_still_succeeds
    (hash : List Nat → String) (st : DevServerState) (c : String) (uid : Nat)
    (u : UploadInfo) (game : GameRow)
    (hu : lookupUpload st c = some u)
    (hmode : u.mode = UploadMode.updateGame)
    (hsum : hash u.content = u.checksum)
    (hg : findGame st.catalog u.gameId = some game)
    (hown : game.developerId = uid)
    (hdup : (findVersion st.catalog u.gameId u.version).isSome = true) :
    (handleUploadComplete hash st c (some uid) true).2 = DevReply.uploadOk u.gameId ∧
    (handleUploadComplete hash st c (some uid) true).1.catalog.versions
        = st.catalog.versions ∧
    lookupCurrentLink (handleUploadComplete hash st c (some uid) true).1 u.gameId
        = some u.version ∧
    lookupUpload (handleUploadComplete hash st c (some uid) true).1 c = none := by
  unfold handleUploadComplete
  simp only [hu, hmode, hg]
  rw [if_neg (fun hne => hne hsum), if_neg (fun hne => hne hown)]
  unfold finalizeUpload
  rw [if_neg (by simp)]
  unfold dbAddGameVersion
  have hdup' : (findVersion (setUpload st c { u with mode := UploadMode.updateGame, sinkOpen := false }).catalog u.gameId u.version).isSome = true := hdup
  rw [if_pos hdup']
  refine ⟨rfl, rfl, ?_, ?_⟩
  · exact lookupCurrentLink_set { removeTempFile (setUpload st c { u with mode := UploadMode.updateGame, sinkOpen := false }) c with packages := (u.gameId, u.version) :: (setUpload st c { u with mode := UploadMode.updateGame, sinkOpen := false }).packages } u.gameId u.version
  · exact lookupUpload_removeUpload { setCurrentLink { removeTempFile (setUpload st c { u with mode := UploadMode.updateGame, sinkOpen := false }) c with packages := (u.gameId, u.version) :: (setUpload st c { u with mode := UploadMode.updateGame, sinkOpen := false }).packages } u.gameId u.version with catalog := ((setUpload st c { u with mode := UploadMode.updateGame, sinkOpen := false }).catalog, none).1 } c

/-- C10 witness, at a catalog that already has a (1, 1.0.0) version
row. -/
theorem C10_witness :
    (handleUploadComplete devDemoHash c10State "c" (some 7) true).2
        = DevReply.uploadOk c10Upload.gameId ∧
    (handleUploadComplete devDemoHash c10State "c" (some 7) true).1.catalog.versions
        = c10State.catalog.versions ∧
    lookupCurrentLink (handleUploadComplete devDemoHash c10State "c" (some 7) true).1
        c10Upload.gameId = some c10Upload.version ∧
    lookupUpload (handleUploadComplete devDemoHash c10State "c" (some 7) true).1 "c"
        = none :=
  C10_duplicate_version_still_succeeds devDemoHash c10State "c" 7 c10Upload devDemoGame
    (by decide) (by decide) (by decide) (by decide) (by decide) (by decide)

/-! ## C8 helper lemmas: characters and digits -/

theorem toNat_ofNat_valid (n : Nat) (h : n.isValidChar) : (Char.ofNat n).toNat = n := by
  unfold Char.ofNat
  rw [dif_pos h]
  rfl

theorem toNat_ofNat_small {n : Nat} (h : n < 0xd800) : (Char.ofNat n).toNat = n :=
  toNat_ofNat_valid n (Or.inl h)

theorem char_range (c : Char) : c.toNat < 0xd800 ∨ (0xe000 ≤ c.toNat ∧ c.toNat < 0x110000) := by
  rcases c.valid with h | h
  · exact Or.inl h
  · exact Or.inr ⟨h.1, h.2⟩

theorem hexVal_hexDigitChar (d : Nat) (h : d < 16) : hexVal (hexDigitChar d) = some d := by
  interval_cases d <;> rfl

theorem not_ws_of_ge {c : Char} (h : 40 ≤ c.toNat) : isWsC c = false := by
  have h1 : c ≠ ' ' := fun he => absurd h (by subst he; decide)
  have h2 : c ≠ '\t' := fun he => absurd h (by subst he; decide)
  have h3 : c ≠ '\n' := fun he => absurd h (by subst he; decide)
  have h4 : c ≠ '\r' := fun he => absurd h (by subst he; decide)
  simp [isWsC, h1, h2, h3, h4]

theorem skipWs_cons_not {c : Char} (h : isWsC c = false) (cs : List Char) :
    skipWs (c :: cs) = c :: cs := by
  simp [skipWs, h]

theorem digit_head_ifs {c : Char} (h : 48 ≤ c.toNat ∧ c.toNat ≤ 57 ∨ c = '-') :
    c ≠ 'n' ∧ c ≠ 't' ∧ c ≠ 'f' ∧ c ≠ '"' ∧ c ≠ '[' ∧ c ≠ '{' := by
  rcases h with h | h
  · refine ⟨?_, ?_, ?_, ?_, ?_, ?_⟩ <;> (intro he; subst he; revert h; decide)
  · subst h
    refine ⟨?_, ?_, ?_, ?_, ?_, ?_⟩ <;> decide

theorem parseDigitsAux_stop (rest : List Char) (h : noDigitStart rest) (acc : Nat) :
    parseDigitsAux rest acc = (acc, rest) := by
  cases rest with
  | nil => rfl
  | cons c cs =>
    unfold noDigitStart at h
    simp [parseDigitsAux, h]

theorem natDecimal_spec (n : Nat) :
    ∃ c cs, natDecimal n = c :: cs ∧ 48 ≤ c.toNat ∧ c.toNat ≤ 57 := by
  induction n using Nat.strong_induction_on with
  | _ n ih =>
    rw [natDecimal]
    by_cases h : n < 10
    · rw [dif_pos h]
      refine ⟨Char.ofNat (48 + n), [], rfl, ?_, ?_⟩ <;>
        (rw [toNat_ofNat_small (by omega)]; omega)
    · rw [dif_neg h]
      obtain ⟨c, cs, hEq, h1, h2⟩ := ih (n / 10) (Nat.div_lt_self (by omega) (by omega))
      exact ⟨c, cs ++ [Char.ofNat (48 + n % 10)], by rw [hEq]; rfl, h1, h2⟩

theorem parseDigitsAux_dec (n : Nat) : ∀ (acc : Nat) (rest : List Char),
    parseDigitsAux (natDecimal n ++ rest) acc
      = parseDigitsAux rest (acc * 10 ^ (natDecimal n).length + n) := by
  induction n using Nat.strong_induction_on with
  | _ n ih =>
    intro acc rest
    rw [natDecimal]
    by_cases h : n < 10
    · rw [dif_pos h]
      have ht : (Char.ofNat (48 + n)).toNat = 48 + n := toNat_ofNat_small (by omega)
      have hd : isDigitC (Char.ofNat (48 + n)) = true := by
        unfold isDigitC
        rw [ht]
        simp
        omega
      simp only [List.singleton_append, List.length_singleton, pow_one, parseDigitsAux]
      rw [if_pos hd, ht]
      congr 1
      omega
    · rw [dif_neg h]
      rw [List.append_assoc]
      rw [ih (n / 10) (Nat.div_lt_self (by omega) (by omega))]
      have ht : (Char.ofNat (48 + n % 10)).toNat = 48 + n % 10 := toNat_ofNat_small (by omega)
      have hd : isDigitC (Char.ofNat (48 + n % 10)) = true := by
        unfold isDigitC
        rw [ht]
        simp
        omega
      simp only [List.singleton_append, parseDigitsAux]
      rw [if_pos hd, ht]
      congr 1
      rw [List.length_append, List.length_singleton]
      have hh : (acc * 10 ^ (natDecimal (n / 10)).length + n / 10) * 10 + (48 + n % 10 - 48)
          = acc * (10 ^ (natDecimal (n / 10)).length * 10) + (n / 10 * 10 + n % 10) := by
        ring_nf
        omega
      have hdm : n / 10 * 10 + n % 10 = n := by omega
      rw [hh, hdm, pow_succ]

theorem intDecimal_spec (n : Int) :
    ∃ c cs, intDecimal n = c :: cs ∧ (48 ≤ c.toNat ∧ c.toNat ≤ 57 ∨ c = '-') := by
  obtain ⟨c, cs, hEq, h1, h2⟩ := natDecimal_spec n.natAbs
  unfold intDecimal
  by_cases hn : n < 0
  · rw [if_pos hn]
    exact ⟨'-', natDecimal n.natAbs, rfl, Or.inr rfl⟩
  · rw [if_neg hn]
    exact ⟨c, cs, hEq, Or.inl ⟨h1, h2⟩⟩

theorem parseNumber_round (n : Int) (rest : List Char) (h : noDigitStart rest) :
    parseNumber (intDecimal n ++ rest) = some (n, rest) := by
  obtain ⟨c, cs, hEq, h1, h2⟩ := natDecimal_spec n.natAbs
  have hdc : isDigitC c = true := by
    unfold isDigitC
    simp
    omega
  unfold intDecimal
  by_cases hn : n < 0
  · rw [if_pos hn]
    simp only [List.cons_append, parseNumber]
    rw [if_pos trivial]
    rw [parseDigitsAux_dec n.natAbs 0 rest, parseDigitsAux_stop rest h]
    simp only [hEq, List.cons_append]
    rw [if_pos hdc]
    simp only [Option.some.injEq, Prod.mk.injEq, and_true]
    omega
  · rw [if_neg hn]
    rw [hEq, List.cons_append]
    simp only [parseNumber]
    have hcm : ¬(c = '-') := fun he => by
      subst he
      revert h1
      decide
    rw [if_neg hcm, if_pos hdc]
    rw [← List.cons_append, ← hEq]
    rw [parseDigitsAux_dec n.natAbs 0 rest, parseDigitsAux_stop rest h]
    simp only [Option.some.injEq, Prod.mk.injEq, and_true]
    omega

/-! ## C8 helper lemmas: string escapes -/

theorem escapeString_cons (c : Char) (cs : List Char) :
    escapeString (c :: cs) = escapeChar c ++ escapeString cs := rfl

theorem parseStringBody_u (fuel : Nat) (h1 h2 h3 h4 : Char) (d1 d2 d3 d4 : Nat)
    (tail : List Char)
    (e1 : hexVal h1 = some d1) (e2 : hexVal h2 = some d2) (e3 : hexVal h3 = some d3)
    (e4 : hexVal h4 = some d4)
    (hr : ¬(0xd800 ≤ d1 * 4096 + d2 * 256 + d3 * 16 + d4 ∧
            d1 * 4096 + d2 * 256 + d3 * 16 + d4 ≤ 0xdfff)) :
    parseStringBody (fuel + 1) ('\\' :: 'u' :: h1 :: h2 :: h3 :: h4 :: tail)
      = match parseStringBody fuel tail with
        | some (s, r) => some (Char.ofNat (d1 * 4096 + d2 * 256 + d3 * 16 + d4) :: s, r)
        | none => none := by
  simp [parseStringBody, e1, e2, e3, e4]
  rw [if_neg (by omega), if_neg (by omega)]

theorem parseStringBody_u_pair (fuel : Nat) (h1 h2 h3 h4 g1 g2 g3 g4 : Char)
    (d1 d2 d3 d4 e1 e2 e3 e4 : Nat) (tail : List Char)
    (v1 : hexVal h1 = some d1) (v2 : hexVal h2 = some d2) (v3 : hexVal h3 = some d3)
    (v4 : hexVal h4 = some d4) (v5 : hexVal g1 = some e1) (v6 : hexVal g2 = some e2)
    (v7 : hexVal g3 = some e3) (v8 : hexVal g4 = some e4)
    (hhi : 0xd800 ≤ d1 * 4096 + d2 * 256 + d3 * 16 + d4 ∧
           d1 * 4096 + d2 * 256 + d3 * 16 + d4 ≤ 0xdbff)
    (hlo : 0xdc00 ≤ e1 * 4096 + e2 * 256 + e3 * 16 + e4 ∧
           e1 * 4096 + e2 * 256 + e3 * 16 + e4 ≤ 0xdfff) :
    parseStringBody (fuel + 1)
        ('\\' :: 'u' :: h1 :: h2 :: h3 :: h4 :: '\\' :: 'u' :: g1 :: g2 :: g3 :: g4 :: tail)
      = match parseStringBody fuel tail with
        | some (s, r) =>
            some (Char.ofNat (0x10000 + (d1 * 4096 + d2 * 256 + d3 * 16 + d4 - 0xd800) * 0x400
              + (e1 * 4096 + e2 * 256 + e3 * 16 + e4 - 0xdc00)) :: s, r)
        | none => none := by
  simp [parseStringBody, v1, v2, v3, v4, v5, v6, v7, v8]
  rw [if_pos (by omega), if_pos (by omega)]

theorem parseStringBody_escape (fuel : Nat) (c : Char) (tail : List Char) :
    parseStringBody (fuel + 1) (escapeChar c ++ tail)
      = match parseStringBody fuel tail with
        | some (s, r) => some (c :: s, r)
        | none => none := by
  by_cases hq : c = '"'
  · subst hq; rfl
  by_cases hbs : c = '\\'
  · subst hbs; rfl
  by_cases h08 : c = '\x08'
  · subst h08; rfl
  by_cases h09 : c = '\x09'
  · subst h09; rfl
  by_cases h0a : c = '\x0a'
  · subst h0a; rfl
  by_cases h0c : c = '\x0c'
  · subst h0c; rfl
  by_cases h0d : c = '\x0d'
  · subst h0d; rfl
  have hesc0 : escapeChar c
      = (if c.toNat < 0x20 then '\\' :: 'u' :: hex4 c.toNat
         else if c.toNat ≤ 0x7e then [c]
         else if c.toNat < 0x10000 then '\\' :: 'u' :: hex4 c.toNat
         else ('\\' :: 'u' :: hex4 (0xd800 + (c.toNat - 0x10000) / 0x400)) ++
              ('\\' :: 'u' :: hex4 (0xdc00 + (c.toNat - 0x10000) % 0x400))) := by
    unfold escapeChar
    rw [if_neg hq, if_neg hbs, if_neg h08, if_neg h09, if_neg h0a, if_neg h0c, if_neg h0d]
  by_cases hctl : c.toNat < 0x20
  · rw [hesc0, if_pos hctl]
    unfold hex4
    simp only [List.cons_append, List.nil_append]
    rw [parseStringBody_u fuel _ _ _ _ _ _ _ _ tail (hexVal_hexDigitChar _ (by omega))
      (hexVal_hexDigitChar _ (by omega)) (hexVal_hexDigitChar _ (by omega))
      (hexVal_hexDigitChar _ (by omega)) (by omega)]
    have hn : c.toNat / 4096 % 16 * 4096 + c.toNat / 256 % 16 * 256 + c.toNat / 16 % 16 * 16
        + c.toNat % 16 = c.toNat := by omega
    rw [hn, Char.ofNat_toNat]
  by_cases hascii : c.toNat ≤ 0x7e
  · rw [hesc0, if_neg hctl, if_pos hascii, List.singleton_append]
    rcases hpt : parseStringBody fuel tail with _ | ⟨s, r⟩ <;>
      simp [parseStringBody, hq, hbs, hpt]
  by_cases hbmp : c.toNat < 0x10000
  · rw [hesc0, if_neg hctl, if_neg hascii, if_pos hbmp]
    unfold hex4
    simp only [List.cons_append, List.nil_append]
    rw [parseStringBody_u fuel _ _ _ _ _ _ _ _ tail (hexVal_hexDigitChar _ (by omega))
      (hexVal_hexDigitChar _ (by omega)) (hexVal_hexDigitChar _ (by omega))
      (hexVal_hexDigitChar _ (by omega))
      (by rcases char_range c with hr | hr <;> omega)]
    have hn : c.toNat / 4096 % 16 * 4096 + c.toNat / 256 % 16 * 256 + c.toNat / 16 % 16 * 16
        + c.toNat % 16 = c.toNat := by omega
    rw [hn, Char.ofNat_toNat]
  · rw [hesc0, if_neg hctl, if_neg hascii, if_neg hbmp]
    have hup : c.toNat < 0x110000 := by rcases char_range c with hr | hr <;> omega
    unfold hex4
    simp only [List.cons_append, List.nil_append, List.append_assoc]
    rw [parseStringBody_u_pair fuel _ _ _ _ _ _ _ _ _ _ _ _ _ _ _ _ tail
      (hexVal_hexDigitChar _ (by omega)) (hexVal_hexDigitChar _ (by omega))
      (hexVal_hexDigitChar _ (by omega)) (hexVal_hexDigitChar _ (by omega))
      (hexVal_hexDigitChar _ (by omega)) (hexVal_hexDigitChar _ (by omega))
      (hexVal_hexDigitChar _ (by omega)) (hexVal_hexDigitChar _ (by omega))
      (by constructor <;> omega) (by constructor <;> omega)]
    have hn : 0x10000
        + ((0xd800 + (c.toNat - 0x10000) / 0x400) / 4096 % 16 * 4096
          + (0xd800 + (c.toNat - 0x10000) / 0x400) / 256 % 16 * 256
          + (0xd800 + (c.toNat - 0x10000) / 0x400) / 16 % 16 * 16
          + (0xd800 + (c.toNat - 0x10000) / 0x400) % 16 - 0xd800) * 0x400
        + ((0xdc00 + (c.toNat - 0x10000) % 0x400) / 4096 % 16 * 4096
          + (0xdc00 + (c.toNat - 0x10000) % 0x400) / 256 % 16 * 256
          + (0xdc00 + (c.toNat - 0x10000) % 0x400) / 16 % 16 * 16
          + (0xdc00 + (c.toNat - 0x10000) % 0x400) % 16 - 0xdc00) = c.toNat := by
      omega
    rw [hn, Char.ofNat_toNat]

theorem parseStringBody_round (s : List Char) : ∀ (fuel : Nat) (rest : List Char),
    s.length + 1 ≤ fuel →
    parseStringBody fuel (escapeString s ++ '"' :: rest) = some (s, rest) := by
  induction s with
  | nil =>
    intro fuel rest h
    obtain ⟨f, rfl⟩ : ∃ f, fuel = f + 1 := ⟨fuel - 1, by omega⟩
    rfl
  | cons c cs ih =>
    intro fuel rest h
    obtain ⟨f, rfl⟩ : ∃ f, fuel = f + 1 := ⟨fuel - 1, by omega⟩
    rw [escapeString_cons, List.append_assoc, parseStringBody_escape f c _,
      ih f rest (by simp at h; omega)]

/-! ## C8 helper lemmas: whitespace, heads and sizes -/

theorem skipWs_ws (s : List Char) : skipWs (' ' :: s) = skipWs s := by
  have h : isWsC ' ' = true := by decide
  simp [skipWs, h]

theorem parseJson_ws (fuel : Nat) (s : List Char) :
    parseJson fuel (' ' :: s) = parseJson fuel s := by
  cases fuel with
  | zero => simp [parseJson]
  | succ f => simp only [parseJson, skipWs_ws]

theorem parseItems_ws (fuel : Nat) (s : List Char) :
    parseItems fuel (' ' :: s) = parseItems fuel s := by
  cases fuel with
  | zero => simp [parseItems]
  | succ f => simp only [parseItems, parseJson_ws]

theorem parseFieldItems_ws (fuel : Nat) (s : List Char) :
    parseFieldItems fuel (' ' :: s) = parseFieldItems fuel s := by
  cases fuel with
  | zero => simp [parseFieldItems]
  | succ f => simp only [parseFieldItems, skipWs_ws]

theorem sizeJ_pos (j : Json) : 1 ≤ sizeJ j := by
  cases j <;> simp [sizeJ]

theorem escapeChar_length (c : Char) : 1 ≤ (escapeChar c).length := by
  unfold escapeChar
  repeat' split
  all_goals simp [hex4]

theorem escapeString_length (s : List Char) : s.length ≤ (escapeString s).length := by
  induction s with
  | nil => simp [escapeString]
  | cons c cs ih =>
    rw [escapeString_cons, List.length_append, List.length_cons]
    have h1 := escapeChar_length c
    omega

theorem dumpsJ_head (j : Json) :
    ∃ c cs, dumpsJ j = c :: cs ∧ isWsC c = false ∧ c ≠ ']' ∧ c ≠ '}' := by
  have hlit : ∀ c : Char, c ∈ ['n', 't', 'f', '-', '"', '[', '{'] →
      isWsC c = false ∧ c ≠ ']' ∧ c ≠ '}' := by decide
  cases j with
  | num n =>
    obtain ⟨c, cs, hEq, hc⟩ := intDecimal_spec n
    rcases hc with ⟨h1, h2⟩ | rfl
    · refine ⟨c, cs, by simpa only [dumpsJ] using hEq, not_ws_of_ge (by omega), ?_, ?_⟩
      · rintro rfl
        exact absurd h2 (by decide)
      · rintro rfl
        exact absurd h2 (by decide)
    · exact ⟨'-', cs, by simpa only [dumpsJ] using hEq, hlit '-' (by decide)⟩
  | bool b =>
    cases b
    · exact ⟨'f', _, rfl, hlit 'f' (by decide)⟩
    · exact ⟨'t', _, rfl, hlit 't' (by decide)⟩
  | null => exact ⟨'n', _, rfl, hlit 'n' (by decide)⟩
  | str s => exact ⟨'"', _, rfl, hlit '"' (by decide)⟩
  | arr l => exact ⟨'[', _, rfl, hlit '[' (by decide)⟩
  | obj f => exact ⟨'{', _, rfl, hlit '{' (by decide)⟩

theorem dumpsList_head (h : Json) (t : JsonList) :
    ∃ c cs, dumpsList (JsonList.cons h t) = c :: cs ∧ isWsC c = false ∧ c ≠ ']' ∧ c ≠ '}' := by
  obtain ⟨c, cs, hEq, hrest⟩ := dumpsJ_head h
  cases t with
  | nil => exact ⟨c, cs, by simpa only [dumpsList] using hEq, hrest⟩
  | cons h2' t2 =>
    refine ⟨c, cs ++ ',' :: ' ' :: dumpsList (JsonList.cons h2' t2), ?_, hrest⟩
    simp only [dumpsList]
    rw [hEq, List.cons_append]

theorem dumpsFields_head (k : List Char) (v : Json) (t : JsonFields) :
    ∃ cs, dumpsFields (JsonFields.cons k v t) = '"' :: cs := by
  cases t with
  | nil =>
    simp only [dumpsFields]
    exact ⟨_, rfl⟩
  | cons k2 v2 t2 =>
    simp only [dumpsFields, List.cons_append]
    exact ⟨_, rfl⟩

/-- The JSON encoder/parser round trip, proved for all three syntactic
sorts at once by induction on the parser fuel. -/
theorem parse_round_all (fuel : Nat) :
    (∀ (j : Json) (rest : List Char), sizeJ j ≤ fuel → noDigitStart rest →
      parseJson fuel (dumpsJ j ++ rest) = some (j, rest)) ∧
    (∀ (h : Json) (t : JsonList) (rest : List Char), sizeL (JsonList.cons h t) ≤ fuel →
      parseItems fuel (dumpsList (JsonList.cons h t) ++ ']' :: rest)
        = some (JsonList.cons h t, rest)) ∧
    (∀ (k : List Char) (v : Json) (t : JsonFields) (rest : List Char),
      sizeF (JsonFields.cons k v t) ≤ fuel →
      parseFieldItems fuel (dumpsFields (JsonFields.cons k v t) ++ '}' :: rest)
        = some (JsonFields.cons k v t, rest)) := by
  induction fuel with
  | zero =>
    refine ⟨?_, ?_, ?_⟩
    · intro j rest hsz _
      have := sizeJ_pos j
      omega
    · intro h t rest hsz
      simp only [sizeL] at hsz
      omega
    · intro k v t rest hsz
      simp only [sizeF] at hsz
      omega
  | succ fuel ih =>
    obtain ⟨ihJ, ihL, ihF⟩ := ih
    refine ⟨?_, ?_, ?_⟩
    · intro j rest hsz hnd
      cases j with
      | null => simp +decide [dumpsJ, parseJson, skipWs]
      | bool b => cases b <;> simp +decide [dumpsJ, parseJson, skipWs]
      | num n =>
        obtain ⟨c, cs, hEq, hc⟩ := intDecimal_spec n
        have hge : 40 ≤ c.toNat := by
          rcases hc with ⟨h1, _⟩ | rfl
          · omega
          · decide
        obtain ⟨b1, b2, b3, b4, b5, b6⟩ := digit_head_ifs hc
        simp only [dumpsJ]
        rw [hEq, List.cons_append]
        simp [parseJson, skipWs_cons_not (not_ws_of_ge hge) (cs ++ rest), b1, b2, b3, b4, b5, b6]
        rw [← List.cons_append, ← hEq, parseNumber_round n rest hnd]
      | str s =>
        simp only [dumpsJ, List.cons_append, List.append_assoc, List.singleton_append]
        simp [parseJson, skipWs_cons_not (show isWsC '"' = false by decide)]
        rw [parseStringBody_round s ((escapeString s).length + (rest.length + 1)) rest (by
          have := escapeString_length s
          omega)]
      | arr l =>
        cases l with
        | nil => simp +decide [dumpsJ, dumpsList, parseJson, skipWs]
        | cons h t =>
          obtain ⟨c, cs, hEq, hw, hb1, hb2⟩ := dumpsList_head h t
          have hsz' : sizeL (JsonList.cons h t) ≤ fuel := by
            simp only [sizeJ] at hsz
            omega
          have hsw2 : skipWs (dumpsList (JsonList.cons h t) ++ ']' :: rest)
              = dumpsList (JsonList.cons h t) ++ ']' :: rest := by
            rw [hEq, List.cons_append]
            exact skipWs_cons_not hw _
          simp only [dumpsJ, List.cons_append, List.append_assoc, List.singleton_append]
          simp [parseJson, skipWs_cons_not (show isWsC '[' = false by decide), hsw2]
          split
          · rename_i r heq
            rw [hEq, List.cons_append] at heq
            injection heq with hh _
            exact absurd hh hb1
          · rw [ihL h t rest hsz']
      | obj f =>
        cases f with
        | nil => simp +decide [dumpsJ, dumpsFields, parseJson, skipWs]
        | cons k v t =>
          obtain ⟨cs0, hEq⟩ := dumpsFields_head k v t
          have hsz' : sizeF (JsonFields.cons k v t) ≤ fuel := by
            simp only [sizeJ] at hsz
            omega
          have hsw2 : skipWs (dumpsFields (JsonFields.cons k v t) ++ '}' :: rest)
              = dumpsFields (JsonFields.cons k v t) ++ '}' :: rest := by
            rw [hEq, List.cons_append]
            exact skipWs_cons_not (by decide) _
          simp only [dumpsJ, List.cons_append, List.append_assoc, List.singleton_append]
          simp [parseJson, skipWs_cons_not (show isWsC '{' = false by decide), hsw2]
          split
          · rename_i r heq
            rw [hEq, List.cons_append] at heq
            injection heq with hh _
            exact absurd hh (by decide)
          · rw [ihF k v t rest hsz']
    · intro h t rest hsz
      cases t with
      | nil =>
        have hszJ : sizeJ h ≤ fuel := by
          simp only [sizeL] at hsz
          omega
        simp only [dumpsList, parseItems]
        rw [ihJ h (']' :: rest) hszJ (by show isDigitC ']' = false; decide)]
        simp [skipWs_cons_not (show isWsC ']' = false by decide)]
      | cons h2 t2 =>
        have hszJ : sizeJ h ≤ fuel := by
          simp only [sizeL] at hsz
          omega
        have hszL : sizeL (JsonList.cons h2 t2) ≤ fuel := by
          simp only [sizeL] at hsz ⊢
          omega
        simp only [dumpsList, List.cons_append, List.append_assoc, parseItems]
        rw [ihJ h (',' :: ' ' :: (dumpsList (JsonList.cons h2 t2) ++ ']' :: rest)) hszJ
          (by show isDigitC ',' = false; decide)]
        simp [skipWs_cons_not (show isWsC ',' = false by decide), parseItems_ws]
        rw [ihL h2 t2 rest hszL]
    · intro k v t rest hsz
      have hszV : sizeJ v ≤ fuel := by
        simp only [sizeF] at hsz
        omega
      cases t with
      | nil =>
        simp only [dumpsFields, List.cons_append, List.append_assoc, List.singleton_append,
          parseFieldItems]
        simp [skipWs_cons_not (show isWsC '"' = false by decide)]
        rw [parseStringBody_round k
          ((escapeString k).length + ((dumpsJ v).length + (rest.length + 1) + 1 + 1 + 1))
          (':' :: ' ' :: (dumpsJ v ++ '}' :: rest)) (by
            have := escapeString_length k
            omega)]
        simp [skipWs_cons_not (show isWsC ':' = false by decide), parseJson_ws]
        rw [ihJ v ('}' :: rest) hszV (by show isDigitC '}' = false; decide)]
        simp [skipWs_cons_not (show isWsC '}' = false by decide)]
      | cons k2 v2 t2 =>
        have hszF : sizeF (JsonFields.cons k2 v2 t2) ≤ fuel := by
          simp only [sizeF] at hsz ⊢
          omega
        simp only [dumpsFields, List.cons_append, List.append_assoc, List.singleton_append,
          parseFieldItems]
        simp [skipWs_cons_not (show isWsC '"' = false by decide)]
        rw [parseStringBody_round k
          ((escapeString k).length + ((dumpsJ v).length
            + ((dumpsFields (JsonFields.cons k2 v2 t2)).length + (rest.length + 1) + 1 + 1)
            + 1 + 1 + 1))
          (':' :: ' ' :: (dumpsJ v
            ++ ',' :: ' ' :: (dumpsFields (JsonFields.cons k2 v2 t2) ++ '}' :: rest))) (by
            have := escapeString_length k
            omega)]
        simp [skipWs_cons_not (show isWsC ':' = false by decide), parseJson_ws]
        rw [ihJ v (',' :: ' ' :: (dumpsFields (JsonFields.cons k2 v2 t2) ++ '}' :: rest)) hszV
          (by show isDigitC ',' = false; decide)]
        simp [skipWs_cons_not (show isWsC ',' = false by decide), parseFieldItems_ws]
        rw [ihF k2 v2 t2 rest hszF]

/-! ## C8: fuel bound, loads, ascii output and utf-8 -/

mutual
theorem sizeJ_le_len : ∀ j : Json, sizeJ j ≤ (dumpsJ j).length
  | .null => by simp [sizeJ, dumpsJ]
  | .bool b => by cases b <;> simp [sizeJ, dumpsJ]
  | .num n => by
    obtain ⟨c, cs, hEq, _⟩ := intDecimal_spec n
    simp [sizeJ, dumpsJ, hEq]
  | .str s => by simp [sizeJ, dumpsJ]
  | .arr l => by
    have h := sizeL_le_len l
    simp only [sizeJ, dumpsJ, List.length_cons, List.length_append]
    omega
  | .obj f => by
    have h := sizeF_le_len f
    simp only [sizeJ, dumpsJ, List.length_cons, List.length_append]
    omega
theorem sizeL_le_len : ∀ l : JsonList, sizeL l ≤ (dumpsList l).length + 1
  | .nil => by simp [sizeL, dumpsList]
  | .cons h .nil => by
    have h1 := sizeJ_le_len h
    simp only [sizeL, dumpsList]
    omega
  | .cons h (.cons h2 t) => by
    have h1 := sizeJ_le_len h
    have h2 := sizeL_le_len (JsonList.cons h2 t)
    simp only [sizeL, dumpsList, List.length_append, List.length_cons] at h2 ⊢
    omega
theorem sizeF_le_len : ∀ f : JsonFields, sizeF f ≤ (dumpsFields f).length + 1
  | .nil => by simp [sizeF, dumpsFields]
  | .cons k v .nil => by
    have h1 := sizeJ_le_len v
    simp only [sizeF, dumpsFields, List.length_append, List.length_cons]
    omega
  | .cons k v (.cons k2 v2 t) => by
    have h1 := sizeJ_le_len v
    have h2 := sizeF_le_len (JsonFields.cons k2 v2 t)
    simp only [sizeF, dumpsFields, List.length_append, List.length_cons] at h2 ⊢
    omega
end

theorem loads_dumps (j : Json) : loads (dumpsJ j) = some j := by
  unfold loads
  have h1 : parseJson ((dumpsJ j).length + 1) (dumpsJ j) = some (j, []) := by
    have h2 := (parse_round_all ((dumpsJ j).length + 1)).1 j []
      (by have := sizeJ_le_len j; omega) (by exact trivial)
    rw [List.append_nil] at h2
    exact h2
  rw [h1]
  simp [skipWs]

theorem hexDigitChar_lt (d : Nat) (h : d < 16) : (hexDigitChar d).toNat < 0x80 := by
  interval_cases d <;> decide

theorem hex4_ascii (n : Nat) : ∀ x ∈ hex4 n, x.toNat < 0x80 := by
  intro x hx
  simp [hex4] at hx
  rcases hx with rfl | rfl | rfl | rfl <;> exact hexDigitChar_lt _ (by omega)

theorem escapeChar_ascii (c : Char) : ∀ x ∈ escapeChar c, x.toNat < 0x80 := by
  intro x hx
  unfold escapeChar at hx
  by_cases h1 : c = '"'
  · rw [if_pos h1] at hx
    simp at hx
    rcases hx with rfl | rfl <;> decide
  rw [if_neg h1] at hx
  by_cases h2 : c = '\\'
  · rw [if_pos h2] at hx
    simp at hx
    subst hx
    decide
  rw [if_neg h2] at hx
  by_cases h3 : c = '\x08'
  · rw [if_pos h3] at hx
    simp at hx
    rcases hx with rfl | rfl <;> decide
  rw [if_neg h3] at hx
  by_cases h4 : c = '\x09'
  · rw [if_pos h4] at hx
    simp at hx
    rcases hx with rfl | rfl <;> decide
  rw [if_neg h4] at hx
  by_cases h5 : c = '\x0a'
  · rw [if_pos h5] at hx
    simp at hx
    rcases hx with rfl | rfl <;> decide
  rw [if_neg h5] at hx
  by_cases h6 : c = '\x0c'
  · rw [if_pos h6] at hx
    simp at hx
    rcases hx with rfl | rfl <;> decide
  rw [if_neg h6] at hx
  by_cases h7 : c = '\x0d'
  · rw [if_pos h7] at hx
    simp at hx
    rcases hx with rfl | rfl <;> decide
  rw [if_neg h7] at hx
  by_cases h8 : c.toNat < 0x20
  · rw [if_pos h8] at hx
    rcases List.mem_cons.mp hx with rfl | hx
    · decide
    rcases List.mem_cons.mp hx with rfl | hx
    · decide
    exact hex4_ascii _ x hx
  rw [if_neg h8] at hx
  by_cases h9 : c.toNat ≤ 0x7e
  · rw [if_pos h9] at hx
    simp at hx
    subst hx
    omega
  rw [if_neg h9] at hx
  by_cases h10 : c.toNat < 0x10000
  · rw [if_pos h10] at hx
    rcases List.mem_cons.mp hx with rfl | hx
    · decide
    rcases List.mem_cons.mp hx with rfl | hx
    · decide
    exact hex4_ascii _ x hx
  · rw [if_neg h10] at hx
    rcases List.mem_append.mp hx with hx | hx
    · rcases List.mem_cons.mp hx with rfl | hx
      · decide
      rcases List.mem_cons.mp hx with rfl | hx
      · decide
      exact hex4_ascii _ x hx
    · rcases List.mem_cons.mp hx with rfl | hx
      · decide
      rcases List.mem_cons.mp hx with rfl | hx
      · decide
      exact hex4_ascii _ x hx

theorem escapeString_ascii (s : List Char) : ∀ x ∈ escapeString s, x.toNat < 0x80 := by
  intro x hx
  unfold escapeString at hx
  obtain ⟨l, hl, hx⟩ := List.mem_flatten.mp hx
  obtain ⟨c, _, rfl⟩ := List.mem_map.mp hl
  exact escapeChar_ascii c x hx

theorem natDecimal_ascii (n : Nat) : ∀ c ∈ natDecimal n, c.toNat < 0x80 := by
  induction n using Nat.strong_induction_on with
  | _ n ih =>
    rw [natDecimal]
    by_cases h : n < 10
    · rw [dif_pos h]
      intro c hc
      simp at hc
      subst hc
      rw [toNat_ofNat_small (by omega)]
      omega
    · rw [dif_neg h]
      intro c hc
      rcases List.mem_append.mp hc with hc | hc
      · exact ih (n / 10) (Nat.div_lt_self (by omega) (by omega)) c hc
      · simp at hc
        subst hc
        rw [toNat_ofNat_small (by omega)]
        omega

mutual
theorem dumpsJ_ascii : ∀ j : Json, ∀ x ∈ dumpsJ j, x.toNat < 0x80
  | .null => by
    intro x hx
    simp [dumpsJ] at hx
    rcases hx with rfl | rfl | rfl <;> decide
  | .bool b => by
    intro x hx
    cases b <;> simp [dumpsJ] at hx
    · rcases hx with rfl | rfl | rfl | rfl | rfl <;> decide
    · rcases hx with rfl | rfl | rfl | rfl <;> decide
  | .num n => by
    intro x hx
    simp only [dumpsJ] at hx
    unfold intDecimal at hx
    split at hx
    · rcases List.mem_cons.mp hx with rfl | hx
      · decide
      · exact natDecimal_ascii _ x hx
    · exact natDecimal_ascii _ x hx
  | .str s => by
    intro x hx
    simp only [dumpsJ] at hx
    rcases List.mem_cons.mp hx with rfl | hx
    · decide
    rcases List.mem_append.mp hx with hx | hx
    · exact escapeString_ascii s x hx
    · simp at hx
      subst hx
      decide
  | .arr l => by
    intro x hx
    simp only [dumpsJ] at hx
    rcases List.mem_cons.mp hx with rfl | hx
    · decide
    rcases List.mem_append.mp hx with hx | hx
    · exact dumpsL_ascii l x hx
    · simp at hx
      subst hx
      decide
  | .obj f => by
    intro x hx
    simp only [dumpsJ] at hx
    rcases List.mem_cons.mp hx with rfl | hx
    · decide
    rcases List.mem_append.mp hx with hx | hx
    · exact dumpsF_ascii f x hx
    · simp at hx
      subst hx
      decide
theorem dumpsL_ascii : ∀ l : JsonList, ∀ x ∈ dumpsList l, x.toNat < 0x80
  | .nil => by
    intro x hx
    simp [dumpsList] at hx
  | .cons h .nil => by
    intro x hx
    simp only [dumpsList] at hx
    exact dumpsJ_ascii h x hx
  | .cons h (.cons h2 t) => by
    intro x hx
    simp only [dumpsList] at hx
    rcases List.mem_append.mp hx with hx | hx
    · exact dumpsJ_ascii h x hx
    rcases List.mem_cons.mp hx with rfl | hx
    · decide
    rcases List.mem_cons.mp hx with rfl | hx
    · decide
    exact dumpsL_ascii (JsonList.cons h2 t) x hx
theorem dumpsF_ascii : ∀ f : JsonFields, ∀ x ∈ dumpsFields f, x.toNat < 0x80
  | .nil => by
    intro x hx
    simp [dumpsFields] at hx
  | .cons k v .nil => by
    intro x hx
    simp only [dumpsFields] at hx
    rcases List.mem_cons.mp hx with rfl | hx
    · decide
    rcases List.mem_append.mp hx with hx | hx
    · exact escapeString_ascii k x hx
    rcases List.mem_cons.mp hx with rfl | hx
    · decide
    rcases List.mem_cons.mp hx with rfl | hx
    · decide
    rcases List.mem_cons.mp hx with rfl | hx
    · decide
    exact dumpsJ_ascii v x hx
  | .cons k v (.cons k2 v2 t) => by
    intro x hx
    simp only [dumpsFields] at hx
    rcases List.mem_append.mp hx with hx | hx
    · rcases List.mem_cons.mp hx with rfl | hx
      · decide
      rcases List.mem_append.mp hx with hx | hx
      · exact escapeString_ascii k x hx
      rcases List.mem_cons.mp hx with rfl | hx
      · decide
      rcases List.mem_cons.mp hx with rfl | hx
      · decide
      rcases List.mem_cons.mp hx with rfl | hx
      · decide
      exact dumpsJ_ascii v x hx
    rcases List.mem_cons.mp hx with rfl | hx
    · decide
    rcases List.mem_cons.mp hx with rfl | hx
    · decide
    exact dumpsF_ascii (JsonFields.cons k2 v2 t) x hx
end

theorem utf8EncodeChar_ascii {c : Char} (h : c.toNat < 0x80) : utf8EncodeChar c = [c.toNat] := by
  unfold utf8EncodeChar
  rw [if_pos h]

theorem utf8Encode_cons (c : Char) (cs : List Char) :
    utf8Encode (c :: cs) = utf8EncodeChar c ++ utf8Encode cs := rfl

theorem utf8EncodeChar_len (c : Char) : 1 ≤ (utf8EncodeChar c).length := by
  unfold utf8EncodeChar
  by_cases h1 : c.toNat < 0x80
  · rw [if_pos h1]
    simp
  rw [if_neg h1]
  by_cases h2 : c.toNat < 0x800
  · rw [if_pos h2]
    simp
  rw [if_neg h2]
  by_cases h3 : c.toNat < 0x10000
  · rw [if_pos h3]
    simp
  · rw [if_neg h3]
    simp

theorem utf8Encode_len (s : List Char) : s.length ≤ (utf8Encode s).length := by
  induction s with
  | nil => simp [utf8Encode]
  | cons c cs ih =>
    rw [utf8Encode_cons, List.length_append, List.length_cons]
    have := utf8EncodeChar_len c
    omega

theorem utf8_ascii_decode (s : List Char) : ∀ fuel : Nat, s.length ≤ fuel →
    (∀ x ∈ s, x.toNat < 0x80) → utf8DecodeAux fuel (utf8Encode s) = some s := by
  induction s with
  | nil =>
    intro fuel _ _
    cases fuel <;> rfl
  | cons c cs ih =>
    intro fuel hf hall
    obtain ⟨f, rfl⟩ : ∃ f, fuel = f + 1 := ⟨fuel - 1, by simp at hf; omega⟩
    have hc : c.toNat < 0x80 := hall c (by simp)
    rw [utf8Encode_cons, utf8EncodeChar_ascii hc, List.singleton_append]
    simp only [utf8DecodeAux]
    rw [if_pos hc, ih f (by simp at hf; omega) (fun x hx => hall x (by simp [hx])),
      Char.ofNat_toNat]

theorem utf8_round_ascii (s : List Char) (h : ∀ x ∈ s, x.toNat < 0x80) :
    utf8Decode (utf8Encode s) = some s := by
  unfold utf8Decode
  exact utf8_ascii_decode s _ (utf8Encode_len s) h

theorem ofCode_toCode (t : MessageType) : MessageType.ofCode t.toCode = some t := by
  cases t <;> rfl

theorem toCode_lt (t : MessageType) : t.toCode < 0x10000 := by
  cases t <;> decide

/-- C8: Message.serialize followed by Message.deserialize on the bytes
after the 4-byte length prefix (which read_from_stream consumes) returns
the same message, for every message type and every JSON-object payload:
the frame codec round-trips, including json.dumps/json.loads with
ensure_ascii escapes and utf-8. -/
theorem C8_serialize_deserialize_roundtrip (t : MessageType) (fields : JsonFields) :
    deserializeMsg ((serializeMsg ⟨t, Json.obj fields⟩).drop 4)
      = some ⟨t, Json.obj fields⟩ := by
  have hdrop : (serializeMsg ⟨t, Json.obj fields⟩).drop 4
      = u16be (MessageType.toCode t) ++ utf8Encode (dumpsJ (Json.obj fields)) := by
    unfold serializeMsg u32be
    simp [List.drop]
  rw [hdrop]
  unfold u16be
  simp only [List.cons_append, List.nil_append, deserializeMsg]
  have harith : MessageType.toCode t / 0x100 % 256 * 256 + MessageType.toCode t % 256
      = MessageType.toCode t := by
    have := toCode_lt t
    omega
  simp only [harith, ofCode_toCode]
  have hobj : dumpsJ (Json.obj fields) = '{' :: (dumpsFields fields ++ ['}']) := by
    simp [dumpsJ]
  have hne : (utf8Encode (dumpsJ (Json.obj fields))).isEmpty = false := by
    rw [hobj, utf8Encode_cons, utf8EncodeChar_ascii (by decide)]
    simp
  rw [if_neg (by simp [hne])]
  rw [utf8_round_ascii (dumpsJ (Json.obj fields)) (dumpsJ_ascii (Json.obj fields))]
  simp only [loads_dumps]

end GameStore
